import Mathlib

/-! OpenSplitDeck dongle firmware: report synthesis (`hid-custom/src/main.c`)

A shallow embedding of the signal conditioners (`map`, `gyro_lowpass_filter`,
`apply_joystick_deadzone`) and of `process_controller_data`, the function that turns
the two controller snapshots into one S-Input report every tick.

Conventions.
* C integers are `Int` (or `Nat` for the `uint8_t` bit masks); every narrowing
  conversion of the source is an explicit wrap (`toInt16`, `toUInt16`, `toInt32`).
* A C `float` is an IEEE-754 binary32 value.  Every finite binary32 value is an integer
  multiple of `2^-149`, so a float is represented by that integer multiple (an `Int`),
  and each arithmetic operation rounds its exact result to the nearest representable
  value, ties to even (`f32_round`).  Operations are evaluated one by one in binary32,
  as the C abstract machine does with `FLT_EVAL_METHOD == 0` (no fused multiply-add,
  no wider intermediate format).
* The function-local `static` variables of `process_controller_data` are the fields of
  `process_state`; one call of the function is one state transition.  Logging and the
  USB transfer read the state but never change it and are left out.
-/

namespace SplitDeck

/-! ## Integer conversions -/

/-- Conversion to `int16_t`: two's complement wrap into `[-32768, 32767]`. -/
def toInt16 (n : Int) : Int := (n + 32768) % 65536 - 32768

/-- Conversion to `uint16_t`: reduction modulo `2^16`. -/
def toUInt16 (n : Int) : Int := n % 65536

/-- Result of `int32_t` arithmetic: two's complement wrap into `[-2^31, 2^31 - 1]`. -/
def toInt32 (n : Int) : Int := (n + 2147483648) % 4294967296 - 2147483648

/-! ## binary32 arithmetic -/

/-- Number of `2^-149` steps in `1.0f`. -/
def f32_unit : Nat := 2 ^ 149

/-- Nearest natural number to `n / q`, ties going to the even neighbour. -/
def rne_div (n q : Nat) : Nat :=
  if 2 * (n % q) < q then n / q
  else if q < 2 * (n % q) then n / q + 1
  else if (n / q) % 2 = 0 then n / q else n / q + 1

/-- One step of the binary search of `bit_length`: `a` counts the bits already
shifted out, `k` is the width tried next. -/
def bit_length_step (k : Nat) (next : Nat → Nat → Nat) (n a : Nat) : Nat :=
  if n < 2 ^ k then next n a else next (n >>> k) (a + k)

/-- Number of binary digits of `n` (`0` for `0`): a binary search for `n < 2^1024`,
which covers every exact sum and product of two finite binary32 values counted in
steps of `2^-298`, and the generic `Nat.size` beyond. -/
def bit_length (n : Nat) : Nat :=
  if n < 2 ^ 1024 then
    bit_length_step 512 (bit_length_step 256 (bit_length_step 128 (bit_length_step 64
      (bit_length_step 32 (bit_length_step 16 (bit_length_step 8 (bit_length_step 4
        (bit_length_step 2 (bit_length_step 1 (fun n a => a + n)))))))))) n 0
  else Nat.size n

/-- Round the exact value `m * 2^-(149+s)` to binary32 (24 significant bits, smallest
step `2^-149`, round to nearest, ties to even); the result counts steps of `2^-149`.
Overflow to infinity is not modelled: the operands met here stay far below `2^128`. -/
def f32_round (s : Nat) (m : Int) : Int :=
  let n := m.natAbs
  let q := if n < 2 ^ (24 + s) then 2 ^ s else 2 ^ (bit_length n - 24)
  Int.sign m * ((rne_div n q * (q / 2 ^ s) : Nat) : Int)

/-- Conversion of an integer (here always a 16-bit one, hence exact) to `float`. -/
def f32_of_int (v : Int) : Int := v * (f32_unit : Int)

/-- The binary32 product `a * b`. -/
def f32_mul (a b : Int) : Int := f32_round 149 (a * b)

/-- The binary32 sum `a + b`. -/
def f32_add (a b : Int) : Int := f32_round 0 (a + b)

/-- The binary32 difference `a - b`. -/
def f32_sub (a b : Int) : Int := f32_round 0 (a - b)

/-- Conversion of a `float` to an integer type: the fraction is discarded
(truncation toward zero). -/
def f32_trunc (a : Int) : Int := Int.tdiv a (f32_unit : Int)

/-- The literal `0.2f` (bit pattern `0x3E4CCCCD`, that is `13421773 * 2^-26`). -/
def touchpad_alpha : Int := ((13421773 * 2 ^ 123 : Nat) : Int)

/-- The literal `0.08f` (bit pattern `0x3DA3D70A`, that is `10737418 * 2^-27`). -/
def gyro_alpha : Int := ((10737418 * 2 ^ 122 : Nat) : Int)

/-- The literal `0.5f` (bit pattern `0x3F000000`, that is `2^-1`). -/
def accel_alpha : Int := ((2 ^ 148 : Nat) : Int)

/-! ## Signal conditioners (`main.c` lines 20-42) -/

/-- `long map(long x, long in_min, long in_max, long out_min, long out_max)`;
C division truncates toward zero. -/
def map (x in_min in_max out_min out_max : Int) : Int :=
  Int.tdiv ((x - in_min) * (out_max - out_min)) (in_max - in_min) + out_min

/-- The `float` value of `alpha * new_value + (1.0f - alpha) * prev_value`, each
operation rounded to binary32. -/
def lowpass_f32 (new_value prev_value alpha : Int) : Int :=
  f32_add (f32_mul alpha (f32_of_int new_value))
    (f32_mul (f32_sub (f32_of_int 1) alpha) (f32_of_int prev_value))

/-- `static int16_t gyro_lowpass_filter(int16_t new_value, int16_t prev_value, float alpha)`:
`return (int16_t)(alpha * new_value + (1.0f - alpha) * prev_value);` -/
def gyro_lowpass_filter (new_value prev_value alpha : Int) : Int :=
  toInt16 (f32_trunc (lowpass_f32 new_value prev_value alpha))

/-- `static int16_t apply_joystick_deadzone(int8_t value, int8_t deadzone)`. -/
def apply_joystick_deadzone (value deadzone : Int) : Int :=
  if value > -deadzone ∧ value < deadzone then 0
  else toInt16 (value * 256)

/-! ## Data model (`controller_esb.h`, `usb_hid_sinput.h`) -/

/-- `simple_controller_state_t`: the latest sample of one controller. -/
structure simple_controller_state_t where
  flags : Nat
  trigger : Nat
  stickX : Int
  stickY : Int
  padX : Int
  padY : Int
  buttons : Nat
  accelX : Int
  accelY : Int
  accelZ : Int
  gyroX : Int
  gyroY : Int
  gyroZ : Int
  data_received : Bool
  last_ping_time : Nat

/-- The field types of `simple_controller_state_t`: every field within the range of
its C type. -/
def simple_controller_state_t.in_range (c : simple_controller_state_t) : Prop :=
  c.flags < 256 ∧ c.trigger < 256 ∧ c.buttons < 256 ∧
  (-128 ≤ c.stickX ∧ c.stickX ≤ 127) ∧ (-128 ≤ c.stickY ∧ c.stickY ≤ 127) ∧
  (-32768 ≤ c.padX ∧ c.padX ≤ 32767) ∧ (-32768 ≤ c.padY ∧ c.padY ≤ 32767) ∧
  (-32768 ≤ c.accelX ∧ c.accelX ≤ 32767) ∧ (-32768 ≤ c.accelY ∧ c.accelY ≤ 32767) ∧
  (-32768 ≤ c.accelZ ∧ c.accelZ ≤ 32767) ∧ (-32768 ≤ c.gyroX ∧ c.gyroX ≤ 32767) ∧
  (-32768 ≤ c.gyroY ∧ c.gyroY ≤ 32767) ∧ (-32768 ≤ c.gyroZ ∧ c.gyroZ ≤ 32767) ∧
  c.last_ping_time < 4294967296

/-- `sinput_input_report_t`: the S-Input report 0x01, fields in declaration order.
The one-bit button fields hold `0` or `1`. -/
structure sinput_input_report_t where
  report_id : Nat
  plug_status : Nat
  charge_percent : Nat
  button_south : Nat
  button_east : Nat
  button_west : Nat
  button_north : Nat
  dpad_up : Nat
  dpad_down : Nat
  dpad_left : Nat
  dpad_right : Nat
  button_stick_left : Nat
  button_stick_right : Nat
  button_l_shoulder : Nat
  button_r_shoulder : Nat
  button_l_trigger : Nat
  button_r_trigger : Nat
  button_l_paddle_1 : Nat
  button_r_paddle_1 : Nat
  button_start : Nat
  button_select : Nat
  button_guide : Nat
  button_capture : Nat
  button_l_paddle_2 : Nat
  button_r_paddle_2 : Nat
  button_touchpad_1 : Nat
  button_touchpad_2 : Nat
  button_power : Nat
  button_misc_4 : Nat
  button_misc_5 : Nat
  button_misc_6 : Nat
  button_misc_7 : Nat
  button_misc_8 : Nat
  button_misc_9 : Nat
  button_misc_10 : Nat
  left_x : Int
  left_y : Int
  right_x : Int
  right_y : Int
  trigger_l : Int
  trigger_r : Int
  imu_timestamp_us : Nat
  accel_x : Int
  accel_y : Int
  accel_z : Int
  gyro_x : Int
  gyro_y : Int
  gyro_z : Int
  touchpad_1_x : Int
  touchpad_1_y : Int
  touchpad_1_pressure : Int
  touchpad_2_x : Int
  touchpad_2_y : Int
  touchpad_2_pressure : Int
  reserved_bulk : List Nat

/-- `SINPUT_INPUT_REPORT_ID`. -/
def SINPUT_INPUT_REPORT_ID : Nat := 0x01

/-- The report after `memset(&report, 0, sizeof(report))`; also the content of the
zero-initialised `static` report before the first call. -/
def report_zero : sinput_input_report_t :=
  { report_id := 0, plug_status := 0, charge_percent := 0,
    button_south := 0, button_east := 0, button_west := 0, button_north := 0,
    dpad_up := 0, dpad_down := 0, dpad_left := 0, dpad_right := 0,
    button_stick_left := 0, button_stick_right := 0, button_l_shoulder := 0,
    button_r_shoulder := 0, button_l_trigger := 0, button_r_trigger := 0,
    button_l_paddle_1 := 0, button_r_paddle_1 := 0,
    button_start := 0, button_select := 0, button_guide := 0, button_capture := 0,
    button_l_paddle_2 := 0, button_r_paddle_2 := 0, button_touchpad_1 := 0,
    button_touchpad_2 := 0,
    button_power := 0, button_misc_4 := 0, button_misc_5 := 0, button_misc_6 := 0,
    button_misc_7 := 0, button_misc_8 := 0, button_misc_9 := 0, button_misc_10 := 0,
    left_x := 0, left_y := 0, right_x := 0, right_y := 0, trigger_l := 0, trigger_r := 0,
    imu_timestamp_us := 0,
    accel_x := 0, accel_y := 0, accel_z := 0, gyro_x := 0, gyro_y := 0, gyro_z := 0,
    touchpad_1_x := 0, touchpad_1_y := 0, touchpad_1_pressure := 0,
    touchpad_2_x := 0, touchpad_2_y := 0, touchpad_2_pressure := 0,
    reserved_bulk := List.replicate 17 0 }

/-- The `static` variables of `process_controller_data` (lines 74-104). -/
structure process_state where
  report : sinput_input_report_t
  report_initialized : Bool
  raw_touch1_x : Int
  raw_touch1_y : Int
  raw_touch2_x : Int
  raw_touch2_y : Int
  last_touch1_x : Int
  last_touch1_y : Int
  last_touch2_x : Int
  last_touch2_y : Int
  last_touch1_active : Bool
  last_touch2_active : Bool
  smooth_touchpad_x : Int
  smooth_touchpad_y : Int
  was_touching : Bool
  prev_gyro_x : Int
  prev_gyro_y : Int
  prev_gyro_z : Int
  prev_accel_x : Int
  prev_accel_y : Int
  prev_accel_z : Int

/-- The state at program start: every `static` holds its initialiser (zero, false). -/
def startup : process_state :=
  { report := report_zero, report_initialized := false,
    raw_touch1_x := 0, raw_touch1_y := 0, raw_touch2_x := 0, raw_touch2_y := 0,
    last_touch1_x := 0, last_touch1_y := 0, last_touch2_x := 0, last_touch2_y := 0,
    last_touch1_active := false, last_touch2_active := false,
    smooth_touchpad_x := 0, smooth_touchpad_y := 0, was_touching := false,
    prev_gyro_x := 0, prev_gyro_y := 0, prev_gyro_z := 0,
    prev_accel_x := 0, prev_accel_y := 0, prev_accel_z := 0 }

/-- A sample with every field zero and no fresh data. -/
def sample_zero : simple_controller_state_t :=
  { flags := 0, trigger := 0, stickX := 0, stickY := 0, padX := 0, padY := 0,
    buttons := 0, accelX := 0, accelY := 0, accelZ := 0, gyroX := 0, gyroY := 0,
    gyroZ := 0, data_received := false, last_ping_time := 0 }

/-! ## `process_controller_data` (`main.c` lines 45-293) -/

/-- Lines 77-83: on the first call the report is zeroed and its three constant header
bytes are set. -/
def init_report (st : process_state) : process_state :=
  if !st.report_initialized then
    { st with
      report := { report_zero with
        report_id := SINPUT_INPUT_REPORT_ID
        plug_status := 0x01
        charge_percent := 100 }
      report_initialized := true }
  else st

/-- Line 111: `report.button_touchpad_1 = 0;`. -/
def clear_touchpad_button (st : process_state) : process_state :=
  { st with report := { st.report with button_touchpad_1 := 0 } }

/-- Lines 114-152: the block guarded by `left_controller->data_received`. -/
def process_left (st : process_state) (left : simple_controller_state_t) : process_state :=
  if left.data_received then
    let touch2_active : Bool := decide (left.padX ≠ 0 ∨ left.padY ≠ 0)
    { st with
      raw_touch2_x := if touch2_active then toUInt16 (map left.padY 0 1023 479 0) else 0
      raw_touch2_y := if touch2_active then toUInt16 (map left.padX 0 1023 0 942) else 0
      report := { st.report with
        left_x := apply_joystick_deadzone left.stickX 5
        left_y := apply_joystick_deadzone left.stickY 5
        trigger_l := toInt16 (((left.trigger : Int) - 128) * 256)
        dpad_up := if left.buttons &&& 0x01 ≠ 0 then 1 else 0
        dpad_down := if left.buttons &&& 0x08 ≠ 0 then 1 else 0
        dpad_left := if left.buttons &&& 0x02 ≠ 0 then 1 else 0
        dpad_right := if left.buttons &&& 0x04 ≠ 0 then 1 else 0
        button_l_shoulder := if left.buttons &&& 0x10 ≠ 0 then 1 else 0
        button_l_trigger := if left.trigger > 128 then 1 else 0
        button_stick_left := if left.buttons &&& 0x20 ≠ 0 then 1 else 0
        button_touchpad_1 :=
          if left.buttons &&& 0x40 ≠ 0 then 1 else st.report.button_touchpad_1
        button_select := if left.buttons &&& 0x80 ≠ 0 then 1 else 0
        button_guide := if left.flags &&& 0x40 ≠ 0 then 1 else 0
        button_l_paddle_1 := if left.flags &&& 0x01 ≠ 0 then 1 else 0
        button_l_paddle_2 := if left.flags &&& 0x02 ≠ 0 then 1 else 0 } }
  else st

/-- Lines 155-228: the block guarded by `right_controller->data_received`. -/
def process_right (st : process_state) (right : simple_controller_state_t) : process_state :=
  if right.data_received then
    let raw_accel_x := toInt16 (Int.tdiv right.accelX 800)
    let raw_accel_y := toInt16 (Int.tdiv right.accelZ 800)
    let raw_accel_z := toInt16 (Int.tdiv right.accelY 800)
    let accel_x := gyro_lowpass_filter raw_accel_x st.prev_accel_x accel_alpha
    let accel_y := gyro_lowpass_filter raw_accel_y st.prev_accel_y accel_alpha
    let accel_z := gyro_lowpass_filter raw_accel_z st.prev_accel_z accel_alpha
    let raw_gyro_x := toInt16 (right.gyroX * -5)
    let raw_gyro_y := toInt16 (right.gyroZ * 5)
    let raw_gyro_z := toInt16 (right.gyroY * -5)
    let gyro_x := gyro_lowpass_filter raw_gyro_x st.prev_gyro_x gyro_alpha
    let gyro_y := gyro_lowpass_filter raw_gyro_y st.prev_gyro_y gyro_alpha
    let gyro_z := gyro_lowpass_filter raw_gyro_z st.prev_gyro_z gyro_alpha
    let touch1_active : Bool := decide (right.padX ≠ 0 ∨ right.padY ≠ 0)
    { st with
      prev_accel_x := accel_x
      prev_accel_y := accel_y
      prev_accel_z := accel_z
      prev_gyro_x := gyro_x
      prev_gyro_y := gyro_y
      prev_gyro_z := gyro_z
      raw_touch1_x := if touch1_active then toUInt16 (map right.padY 0 1023 480 959) else 0
      raw_touch1_y := if touch1_active then toUInt16 (map right.padX 0 1023 942 0) else 0
      report := { st.report with
        right_x := apply_joystick_deadzone right.stickX 5
        right_y := apply_joystick_deadzone right.stickY 5
        trigger_r := toInt16 (((right.trigger : Int) - 128) * 256)
        accel_x := accel_x
        accel_y := accel_y
        accel_z := accel_z
        gyro_x := gyro_x
        gyro_y := gyro_y
        gyro_z := gyro_z
        button_north := if right.buttons &&& 0x01 ≠ 0 then 1 else 0
        button_west := if right.buttons &&& 0x02 ≠ 0 then 1 else 0
        button_east := if right.buttons &&& 0x04 ≠ 0 then 1 else 0
        button_south := if right.buttons &&& 0x08 ≠ 0 then 1 else 0
        button_r_shoulder := if right.buttons &&& 0x10 ≠ 0 then 1 else 0
        button_r_trigger := if right.trigger > 128 then 1 else 0
        button_stick_right := if right.buttons &&& 0x20 ≠ 0 then 1 else 0
        button_touchpad_1 :=
          if right.buttons &&& 0x40 ≠ 0 then 1 else st.report.button_touchpad_1
        button_start := if right.buttons &&& 0x80 ≠ 0 then 1 else 0
        button_r_paddle_1 := if right.flags &&& 0x01 ≠ 0 then 1 else 0
        button_r_paddle_2 := if right.flags &&& 0x02 ≠ 0 then 1 else 0
        button_guide := if right.flags &&& 0x40 ≠ 0 then 1 else st.report.button_guide } }
  else st

/-- Line 232: `const uint16_t TOUCH_DEADZONE = 10;`. -/
def TOUCH_DEADZONE : Int := 10

/-- Line 233: the right surface counts as touched. -/
def touch1_active (st : process_state) : Bool :=
  decide (st.raw_touch1_x > TOUCH_DEADZONE ∨ st.raw_touch1_y > TOUCH_DEADZONE)

/-- Line 234: the left surface counts as touched. -/
def touch2_active (st : process_state) : Bool :=
  decide (st.raw_touch2_x > TOUCH_DEADZONE ∨ st.raw_touch2_y > TOUCH_DEADZONE)

/-- Line 237: `active_x`. -/
def active_x (st : process_state) : Int :=
  if touch1_active st then st.raw_touch1_x
  else if touch2_active st then st.raw_touch2_x else 0

/-- Line 238: `active_y`. -/
def active_y (st : process_state) : Int :=
  if touch1_active st then st.raw_touch1_y
  else if touch2_active st then st.raw_touch2_y else 0

/-- Line 243: `(int16_t)(((int32_t)active_x - 479) * 65535 / 959)`. -/
def target_x (st : process_state) : Int :=
  toInt16 (Int.tdiv (toInt32 ((active_x st - 479) * 65535)) 959)

/-- Line 244: `(int16_t)(((int32_t)active_y - 471) * 65535 / 942)`. -/
def target_y (st : process_state) : Int :=
  toInt16 (Int.tdiv (toInt32 ((active_y st - 471) * 65535)) 942)

/-- Lines 230-283: the two surfaces are combined into touchpad 1, the history is
updated and touchpad 2 is cleared. -/
def combine_touchpads (st : process_state) : process_state :=
  let st1 : process_state :=
    if touch1_active st || touch2_active st then
      let sx := if !st.was_touching then target_x st
        else gyro_lowpass_filter (target_x st) st.smooth_touchpad_x touchpad_alpha
      let sy := if !st.was_touching then target_y st
        else gyro_lowpass_filter (target_y st) st.smooth_touchpad_y touchpad_alpha
      { st with
        smooth_touchpad_x := sx
        smooth_touchpad_y := sy
        was_touching := true
        report := { st.report with
          touchpad_1_x := sx
          touchpad_1_y := sy
          touchpad_1_pressure := 255 } }
    else
      { st with
        smooth_touchpad_x := 0
        smooth_touchpad_y := 0
        was_touching := false
        report := { st.report with
          touchpad_1_x := 0
          touchpad_1_y := 0
          touchpad_1_pressure := 0 } }
  { st1 with
    last_touch1_x := st.raw_touch1_x
    last_touch1_y := st.raw_touch1_y
    last_touch1_active := touch1_active st
    last_touch2_x := st.raw_touch2_x
    last_touch2_y := st.raw_touch2_y
    last_touch2_active := touch2_active st
    report := { st1.report with
      touchpad_2_x := 0
      touchpad_2_y := 0
      touchpad_2_pressure := 0 } }

/-- The state after the two controller blocks (line 228), before the touch surfaces
are combined. -/
def controller_blocks (st : process_state) (left right : simple_controller_state_t) :
    process_state :=
  process_right (process_left (clear_touchpad_button (init_report st)) left) right

/-- `static void process_controller_data(const struct device *hid_dev)`: one tick.
`left` and `right` are the snapshots returned by `controller_esb_get_left_state` and
`controller_esb_get_right_state`; the report of the resulting state is the one sent. -/
def process_controller_data (st : process_state) (left right : simple_controller_state_t) :
    process_state :=
  combine_touchpads (controller_blocks st left right)

/-- A `static` report that has not been through the first call is still all zero
(C zero-initialises objects of static storage duration). -/
def statics_consistent (st : process_state) : Prop :=
  st.report_initialized = false → st.report = report_zero

/-! ## Views of the state used to state the properties -/

/-- The report fields written only by the left controller's block. -/
def left_sourced (r : sinput_input_report_t) :
    Int × Int × Int × Nat × Nat × Nat × Nat × Nat × Nat × Nat × Nat × Nat × Nat :=
  (r.left_x, r.left_y, r.trigger_l, r.dpad_up, r.dpad_down, r.dpad_left, r.dpad_right,
    r.button_l_shoulder, r.button_l_trigger, r.button_stick_left, r.button_select,
    r.button_l_paddle_1, r.button_l_paddle_2)

/-- The report fields written only by the right controller's block. -/
def right_sourced (r : sinput_input_report_t) :
    Int × Int × Int × Int × Int × Int × Int × Int × Int ×
      Nat × Nat × Nat × Nat × Nat × Nat × Nat × Nat × Nat × Nat :=
  (r.right_x, r.right_y, r.trigger_r, r.accel_x, r.accel_y, r.accel_z,
    r.gyro_x, r.gyro_y, r.gyro_z,
    r.button_north, r.button_south, r.button_east, r.button_west,
    r.button_r_shoulder, r.button_r_trigger, r.button_stick_right, r.button_start,
    r.button_r_paddle_1, r.button_r_paddle_2)

/-- What a tick leaves of the fused touchpad: the three report fields of touchpad 1
and the persisted smoothing state. -/
def touch_output (st : process_state) : Int × Int × Int × Int × Int × Bool :=
  (st.report.touchpad_1_x, st.report.touchpad_1_y, st.report.touchpad_1_pressure,
    st.smooth_touchpad_x, st.smooth_touchpad_y, st.was_touching)

/-! ## Samples used in the worked scenarios -/

/-- A fresh sample with nothing pressed, the trigger released and the pad untouched. -/
def fresh_idle : simple_controller_state_t :=
  { sample_zero with data_received := true }

/-- A fresh sample whose `flags` carry the guide bit `0x40`. -/
def fresh_guide : simple_controller_state_t :=
  { sample_zero with flags := 0x40, data_received := true }

/-- A fresh sample touching the pad at `(500, 500)`. -/
def fresh_pad_500 : simple_controller_state_t :=
  { sample_zero with padX := 500, padY := 500, data_received := true }

/-- A fresh sample touching the pad at `padX = 0`, `padY = 1023`. -/
def fresh_pad_edge : simple_controller_state_t :=
  { sample_zero with padX := 0, padY := 1023, data_received := true }

/-- A fresh left sample with the stick at `(3, -3)`. -/
def fresh_stick_3 : simple_controller_state_t :=
  { sample_zero with stickX := 3, stickY := -3, data_received := true }

/-- A fresh right sample with the trigger at `200`. -/
def fresh_trigger_200 : simple_controller_state_t :=
  { sample_zero with trigger := 200, data_received := true }

/-- A fresh left sample with the stick pushed to `(100, -100)`, the trigger at `255`
and every button pressed. -/
def fresh_left_busy : simple_controller_state_t :=
  { sample_zero with
    stickX := 100, stickY := -100, trigger := 255, buttons := 0xFF, flags := 0x03,
    data_received := true }

/-! ## A fast evaluator for the low-pass filter on non-negative inputs

The functions below recompute `lowpass_f32` on significand/exponent pairs with the
primitive operations on `Nat`; `lowpass_fast_spec` shows that they agree with the
model.  They serve to check the filter on every 16-bit value. -/

/-- `rne_div` written with primitive operations. -/
def rne_fast (n q : Nat) : Nat :=
  cond (Nat.blt (Nat.mul 2 (Nat.mod n q)) q) (Nat.div n q)
    (cond (Nat.blt q (Nat.mul 2 (Nat.mod n q))) (Nat.succ (Nat.div n q))
      (cond (Nat.beq (Nat.mod (Nat.div n q) 2) 0) (Nat.div n q) (Nat.succ (Nat.div n q))))

/-- `w` has exactly `L` binary digits. -/
def has_bits (L w : Nat) : Bool :=
  Nat.ble (Nat.pow 2 (Nat.pred L)) w && Nat.blt w (Nat.pow 2 L)

/-- The value `p.1 * 2^p.2`, counted in steps of `2^-149`. -/
def dyadic_val (p : Nat × Nat) : Int := ((p.1 * 2 ^ p.2 : Nat) : Int)

/-- `f32_round s (w * 2^j)` as a significand/exponent pair; `L0` and `L0 + 1` are the
digit counts of `w` that are tried before falling back on `f32_round` itself. -/
def round_fast (s L0 j w : Nat) : Nat × Nat :=
  cond (Nat.blt w 16777216) (w, Nat.sub j s)
    (cond (has_bits L0 w)
      (rne_fast w (Nat.pow 2 (Nat.sub L0 24)), Nat.sub (Nat.add (Nat.sub L0 24) j) s)
      (cond (has_bits (Nat.succ L0) w)
        (rne_fast w (Nat.pow 2 (Nat.sub L0 23)), Nat.sub (Nat.add (Nat.sub L0 23) j) s)
        (Int.natAbs (f32_round s ((w * 2 ^ j : Nat) : Int)), 0)))

/-- `f32_add` on significand/exponent pairs; `L0` is the digit count expected of the
exact sum. -/
def add_fast (L0 : Nat) (a b : Nat × Nat) : Nat × Nat :=
  cond (Nat.ble a.2 b.2)
    (round_fast 0 (Nat.sub L0 a.2) a.2
      (Nat.add a.1 (Nat.mul b.1 (Nat.pow 2 (Nat.sub b.2 a.2)))))
    (round_fast 0 (Nat.sub L0 b.2) b.2
      (Nat.add b.1 (Nat.mul a.1 (Nat.pow 2 (Nat.sub a.2 b.2)))))

/-- `lowpass_f32 v v alpha` for `alpha = A * 2^t`, `1.0f - alpha = B * 2^tb` and
`v` about `2^k`. -/
def lowpass_fast (A t B tb k v : Nat) : Nat × Nat :=
  add_fast (Nat.add k 149)
    (round_fast 149 (Nat.add k 24) (Nat.add t 149) (Nat.mul A v))
    (round_fast 149 (Nat.add k 24) (Nat.add tb 149) (Nat.mul B v))

/-- The filter maps `(v, v)` to `v`, computed with `lowpass_fast`. -/
def fixed_point_check (A t B tb k v : Nat) : Bool :=
  Nat.beq (Nat.div (Nat.mul (lowpass_fast A t B tb k v).1
    (Nat.pow 2 (lowpass_fast A t B tb k v).2)) (Nat.pow 2 149)) v

/-- `f` holds at `lo`, `lo + 1`, ..., `lo + 2^k - 1`. -/
def all_in_range (f : Nat → Bool) : Nat → Nat → Bool
  | 0, lo => f lo
  | k + 1, lo => all_in_range f k lo && all_in_range f k (lo + 2 ^ k)

/-- The fixed-point check on every `v` with `1 ≤ v < 2^(K+1)`, binade by binade. -/
def check_binades (A t B tb : Nat) : Nat → Bool
  | 0 => all_in_range (fixed_point_check A t B tb 0) 0 1
  | K + 1 => check_binades A t B tb K &&
      all_in_range (fixed_point_check A t B tb (K + 1)) (K + 1) (2 ^ (K + 1))

/-- The literal `0.22f` (bit pattern `0x3E6147AE`, that is `14763950 * 2^-26`), a
smoothing factor inside the range 0.1 to 0.3 that the source recommends. -/
def alpha_0_22 : Int := ((7381975 * 2 ^ 124 : Nat) : Int)

/-! ## Rounding on magnitudes -/

/-- Exponent of the rounding step used for the magnitude `n` (counted in steps of
`2^-(149+s)`): the smallest step `2^s` below `2^(24+s)`, and 24 significant bits
above. -/
def round_exp (s n : Nat) : Nat := if n < 2 ^ (24 + s) then s else Nat.size n - 24

/-- The magnitude of `f32_round s m` for `|m| = n`. -/
def round_nat (s n : Nat) : Nat :=
  rne_div n (2 ^ round_exp s n) * 2 ^ (round_exp s n - s)

/-- A fresh sample touching the pad at its far corner `(1023, 1023)`. -/
def fresh_pad_max : simple_controller_state_t :=
  { sample_zero with padX := 1023, padY := 1023, data_received := true }

/-- A fresh sample touching the pad at `(1, 1)`. -/
def fresh_pad_min : simple_controller_state_t :=
  { sample_zero with padX := 1, padY := 1, data_received := true }

/-! ## Runs of ticks and further views -/

/-- The state reached from start-up after one tick per element of `samples`, each
element being the pair of snapshots (left, right) seen by that tick. -/
def run_ticks (samples : List (simple_controller_state_t × simple_controller_state_t)) :
    process_state :=
  samples.foldl (fun st p => process_controller_data st p.1 p.2) startup

/-- The report fields that no controller feeds: touchpad 2, the three header bytes, the
IMU timestamp, the reserved bytes, and the button bits `button_capture`,
`button_touchpad_2`, `button_power`, `button_misc_4` .. `button_misc_10`. -/
def constant_fields (r : sinput_input_report_t) :
    Int × Int × Int × Nat × Nat × Nat × Nat × List Nat ×
      Nat × Nat × Nat × Nat × Nat × Nat × Nat × Nat × Nat × Nat :=
  (r.touchpad_2_x, r.touchpad_2_y, r.touchpad_2_pressure,
    r.report_id, r.plug_status, r.charge_percent, r.imu_timestamp_us, r.reserved_bulk,
    r.button_capture, r.button_touchpad_2, r.button_power, r.button_misc_4,
    r.button_misc_5, r.button_misc_6, r.button_misc_7, r.button_misc_8, r.button_misc_9,
    r.button_misc_10)

/-- The persisted state of the IMU filters. -/
def imu_state (st : process_state) : Int × Int × Int × Int × Int × Int :=
  (st.prev_accel_x, st.prev_accel_y, st.prev_accel_z,
    st.prev_gyro_x, st.prev_gyro_y, st.prev_gyro_z)

/-! ## The main loop (`main.c` lines 344-375) -/

/-- Result of `uint32_t` arithmetic: reduction modulo `2^32`. -/
def toUInt32 (n : Int) : Int := n % 4294967296

/-- The state of the main loop: the local `last_report_time`, the statics of
`process_controller_data`, and a count of the calls of `process_controller_data` made so
far (each call sends one report). -/
structure main_state where
  last_report_time : Int
  st : process_state
  reports_sent : Nat

/-- Line 345: the state in which the loop is entered. -/
def main_start : main_state :=
  { last_report_time := 0, st := startup, reports_sent := 0 }

/-- Line 352: `now - last_report_time >= 4`, in `uint32_t` arithmetic. -/
def report_due (s : main_state) (now : Int) : Bool :=
  decide (toUInt32 (now - s.last_report_time) ≥ 4)

/-- One iteration of `while (true)` (lines 347-375): `now` is the value returned by
`k_uptime_get_32()` at line 349, `left` and `right` the snapshots a call at this time
would read.  The timing warnings and the sleep do not change the state. -/
def loop_iteration (s : main_state) (now : Int) (left right : simple_controller_state_t) :
    main_state :=
  if report_due s now then
    { last_report_time := now
      st := process_controller_data s.st left right
      reports_sent := s.reports_sent + 1 }
  else s

/-- The clock values at which the loop fires, over a sequence of iterations. -/
def fire_times (s : main_state) :
    List (Int × simple_controller_state_t × simple_controller_state_t) → List Int
  | [] => []
  | (now, left, right) :: rest =>
    if report_due s now then now :: fire_times (loop_iteration s now left right) rest
    else fire_times (loop_iteration s now left right) rest

/-! ## The layout of `sinput_input_report_t` (`usb_hid_sinput.h` lines 38-124) -/

/-- The types of the members of `sinput_input_report_t`. -/
inductive member_type where
  | uint8_t
  | int16_t
  | uint32_t
  | uint8_array (n : Nat)
  | buttons_union

/-- The struct of one-bit `uint8_t` bit-fields inside the buttons union: `n` bits,
eight to a byte. -/
def bit_fields_size (n : Nat) : Nat := (n + 7) / 8

/-- `sizeof` for the member types; the union is as large as the larger of its two
structs (32 one-bit fields, and the four bytes `buttons_1` .. `buttons_4`). -/
def member_type.sizeof : member_type → Nat
  | .uint8_t => 1
  | .int16_t => 2
  | .uint32_t => 4
  | .uint8_array n => n * 1
  | .buttons_union => max (bit_fields_size 32) (4 * 1)

/-- The members of `sinput_input_report_t`. -/
inductive report_member where
  | report_id | plug_status | charge_percent | buttons
  | left_x | left_y | right_x | right_y | trigger_l | trigger_r
  | imu_timestamp_us
  | accel_x | accel_y | accel_z | gyro_x | gyro_y | gyro_z
  | touchpad_1_x | touchpad_1_y | touchpad_1_pressure
  | touchpad_2_x | touchpad_2_y | touchpad_2_pressure
  | reserved_bulk
  deriving DecidableEq

/-- The member declarations of `sinput_input_report_t`, in order. -/
def sinput_input_report_members : List (report_member × member_type) :=
  [(.report_id, .uint8_t), (.plug_status, .uint8_t), (.charge_percent, .uint8_t),
    (.buttons, .buttons_union),
    (.left_x, .int16_t), (.left_y, .int16_t), (.right_x, .int16_t), (.right_y, .int16_t),
    (.trigger_l, .int16_t), (.trigger_r, .int16_t),
    (.imu_timestamp_us, .uint32_t),
    (.accel_x, .int16_t), (.accel_y, .int16_t), (.accel_z, .int16_t),
    (.gyro_x, .int16_t), (.gyro_y, .int16_t), (.gyro_z, .int16_t),
    (.touchpad_1_x, .int16_t), (.touchpad_1_y, .int16_t), (.touchpad_1_pressure, .int16_t),
    (.touchpad_2_x, .int16_t), (.touchpad_2_y, .int16_t), (.touchpad_2_pressure, .int16_t),
    (.reserved_bulk, .uint8_array 17)]

/-- `sizeof` of a struct declared under `#pragma pack(push, 1)`: the members follow
one another without padding. -/
def packed_sizeof (members : List (report_member × member_type)) : Nat :=
  (members.map (fun m => m.2.sizeof)).sum

/-- `offsetof` in a struct declared under `#pragma pack(push, 1)`: the sizes of the
members declared before `m`. -/
def packed_offsetof (m : report_member) :
    List (report_member × member_type) → Option Nat
  | [] => none
  | (m', t) :: rest =>
    if m' = m then some 0 else (packed_offsetof m rest).map (fun o => t.sizeof + o)

/-- A fresh right sample turning at `gyroX = 10000`. -/
def fresh_gyro_fast : simple_controller_state_t :=
  { sample_zero with gyroX := 10000, data_received := true }

/-- A fresh right sample with the accelerometer at `(1700, -1700, 8000)`. -/
def fresh_accel : simple_controller_state_t :=
  { sample_zero with accelX := 1700, accelY := -1700, accelZ := 8000, data_received := true }

/-- The three accelerometer fields of the report. -/
def report_accel (r : sinput_input_report_t) : Int × Int × Int :=
  (r.accel_x, r.accel_y, r.accel_z)

/-- The persisted previous accelerometer outputs. -/
def prev_accel (st : process_state) : Int × Int × Int :=
  (st.prev_accel_x, st.prev_accel_y, st.prev_accel_z)

/-! ## Samples for the threshold on the mapped coordinates -/

/-- A fresh left sample with a faint touch at `padX = 5`, `padY = 1023`. -/
def fresh_pad_faint : simple_controller_state_t :=
  { sample_zero with padX := 5, padY := 1023, data_received := true }

/-- A fresh right sample touching the pad at `padX = 1023`, `padY = 1`. -/
def fresh_pad_corner : simple_controller_state_t :=
  { sample_zero with padX := 1023, padY := 1, data_received := true }

/-! ## Frame lemmas for the stages of a tick -/

theorem init_report_left_sourced (st : process_state) (h : statics_consistent st) :
    left_sourced (init_report st).report = left_sourced st.report := by
  unfold init_report
  cases hi : st.report_initialized
  · simp [h hi, left_sourced, report_zero]
  · simp

theorem init_report_right_sourced (st : process_state) (h : statics_consistent st) :
    right_sourced (init_report st).report = right_sourced st.report := by
  unfold init_report
  cases hi : st.report_initialized
  · simp [h hi, right_sourced, report_zero]
  · simp

theorem combine_touchpads_left_sourced (st : process_state) :
    left_sourced (combine_touchpads st).report = left_sourced st.report := by
  unfold combine_touchpads
  split <;> rfl

theorem combine_touchpads_right_sourced (st : process_state) :
    right_sourced (combine_touchpads st).report = right_sourced st.report := by
  unfold combine_touchpads
  split <;> rfl

theorem process_right_left_sourced (st : process_state) (right : simple_controller_state_t) :
    left_sourced (process_right st right).report = left_sourced st.report := by
  unfold process_right
  split <;> rfl

theorem process_left_right_sourced (st : process_state) (left : simple_controller_state_t) :
    right_sourced (process_left st left).report = right_sourced st.report := by
  unfold process_left
  split <;> rfl

theorem process_left_stale (st : process_state) (left : simple_controller_state_t)
    (h : left.data_received = false) : process_left st left = st := by
  simp [process_left, h]

theorem process_right_stale (st : process_state) (right : simple_controller_state_t)
    (h : right.data_received = false) : process_right st right = st := by
  simp [process_right, h]

theorem init_report_initialized (st : process_state) :
    (init_report st).report_initialized = true := by
  unfold init_report
  cases hi : st.report_initialized <;> simp [hi]

theorem process_controller_data_initialized (st : process_state)
    (left right : simple_controller_state_t) :
    (process_controller_data st left right).report_initialized = true := by
  have h1 : ∀ s, (combine_touchpads s).report_initialized = s.report_initialized := by
    intro s; unfold combine_touchpads; split <;> rfl
  have h2 : ∀ s, (process_right s right).report_initialized = s.report_initialized := by
    intro s; unfold process_right; split <;> rfl
  have h3 : ∀ s, (process_left s left).report_initialized = s.report_initialized := by
    intro s; unfold process_left; split <;> rfl
  rw [process_controller_data, controller_blocks, h1, h2, h3]
  exact init_report_initialized st

theorem process_controller_data_consistent (st : process_state)
    (left right : simple_controller_state_t) :
    statics_consistent (process_controller_data st left right) := by
  intro h
  rw [process_controller_data_initialized] at h
  cases h

theorem startup_consistent : statics_consistent startup := fun _ => rfl

/-! ## C1: hold-last-value -/

/-- C1. If the left controller has no fresh data, one tick leaves every left-sourced
report field at its previous value; if the right controller has no fresh data, one tick
leaves every right-sourced report field at its previous value. -/
theorem C1_hold_last_value (st : process_state) (left right : simple_controller_state_t)
    (h : statics_consistent st) :
    (left.data_received = false →
      left_sourced (process_controller_data st left right).report
        = left_sourced st.report) ∧
    (right.data_received = false →
      right_sourced (process_controller_data st left right).report
        = right_sourced st.report) := by
  constructor
  · intro hl
    rw [process_controller_data, controller_blocks, combine_touchpads_left_sourced,
      process_right_left_sourced, process_left_stale _ _ hl, ← init_report_left_sourced st h]
    rfl
  · intro hr
    rw [process_controller_data, controller_blocks, combine_touchpads_right_sourced,
      process_right_stale _ _ hr, process_left_right_sourced,
      ← init_report_right_sourced st h]
    rfl

/-- C1 at a concrete run: after a tick in which the left controller pushed its stick
and pressed every button, a tick without fresh left data keeps all of that, and a tick
without fresh right data keeps the right-sourced fields. -/
theorem C1_hold_last_value_witness :
    statics_consistent (process_controller_data startup fresh_left_busy fresh_trigger_200) ∧
    left_sourced (process_controller_data
        (process_controller_data startup fresh_left_busy fresh_trigger_200)
        sample_zero fresh_idle).report
      = (25600, -25600, 32512, 1, 1, 1, 1, 1, 1, 1, 1, 1, 1) ∧
    (right_sourced (process_controller_data
        (process_controller_data startup fresh_left_busy fresh_trigger_200)
        fresh_idle sample_zero).report).2.2.1 = 18432 :=
  ⟨process_controller_data_consistent _ _ _,
    ((C1_hold_last_value _ sample_zero fresh_idle
      (process_controller_data_consistent _ _ _)).1 rfl).trans (by rfl),
    (congrArg (fun p => p.2.2.1) ((C1_hold_last_value _ fresh_idle sample_zero
      (process_controller_data_consistent _ _ _)).2 rfl)).trans (by rfl)⟩

/-! ## C2, C3: the shared button bits -/

theorem combine_touchpads_buttons (st : process_state) :
    (combine_touchpads st).report.button_guide = st.report.button_guide ∧
    (combine_touchpads st).report.button_touchpad_1 = st.report.button_touchpad_1 := by
  unfold combine_touchpads
  split <;> exact ⟨rfl, rfl⟩

/-- What the code does with the guide bit when the left controller is stale: the bit
is set by a fresh right sample carrying `0x40` and otherwise keeps its previous value
(nothing clears it). -/
theorem guide_left_stale (st : process_state) (left right : simple_controller_state_t)
    (h : statics_consistent st) (hl : left.data_received = false) :
    (process_controller_data st left right).report.button_guide =
      if right.data_received = true ∧ right.flags &&& 0x40 ≠ 0 then 1
      else st.report.button_guide := by
  have hi : (init_report st).report.button_guide = st.report.button_guide := by
    unfold init_report
    cases hr : st.report_initialized
    · simp [h hr, report_zero]
    · simp
  rw [process_controller_data, controller_blocks, (combine_touchpads_buttons _).1,
    process_left_stale _ _ hl, ← hi]
  unfold process_right
  cases hr : right.data_received
  · simp [clear_touchpad_button]
  · by_cases hf : right.flags &&& 0x40 = 0 <;> simp [clear_touchpad_button, hf]

/-- C2 (the code at the failing input). Tick 1: only the right controller is fresh and
its flags carry `0x40`; tick 2: only the right controller is fresh and its flags are
`0x00`.  The guide bit is 1 after tick 1 and is still 1 after tick 2. -/
theorem C2_guide_not_reset :
    (process_controller_data startup sample_zero fresh_guide).report.button_guide = 1 ∧
    fresh_idle.flags &&& 0x40 = 0 ∧
    (process_controller_data (process_controller_data startup sample_zero fresh_guide)
      sample_zero fresh_idle).report.button_guide = 1 := by
  refine ⟨rfl, rfl, rfl⟩

/-- C3. After one tick `button_touchpad_1` is 1 exactly when a controller with fresh
data has bit `0x40` of `buttons` set, and 0 otherwise, whatever its previous value. -/
theorem C3_touchpad_click_or (st : process_state) (left right : simple_controller_state_t) :
    (process_controller_data st left right).report.button_touchpad_1 =
      if (left.data_received = true ∧ left.buttons &&& 0x40 ≠ 0) ∨
          (right.data_received = true ∧ right.buttons &&& 0x40 ≠ 0) then 1 else 0 := by
  rw [process_controller_data, controller_blocks, (combine_touchpads_buttons _).2]
  unfold process_right process_left clear_touchpad_button
  cases hl : left.data_received <;> cases hr : right.data_received <;>
    by_cases hlb : left.buttons &&& 0x40 = 0 <;>
    by_cases hrb : right.buttons &&& 0x40 = 0 <;> simp [hlb, hrb]

/-! ## C4, C5, C6: the fused touchpad -/

theorem touch_output_inactive (st : process_state)
    (h1 : touch1_active st = false) (h2 : touch2_active st = false) :
    touch_output (combine_touchpads st) = (0, 0, 0, 0, 0, false) := by
  simp [combine_touchpads, touch_output, h1, h2]

theorem touch_output_touch_down (st : process_state)
    (ha : (touch1_active st || touch2_active st) = true) (hw : st.was_touching = false) :
    touch_output (combine_touchpads st) =
      (target_x st, target_y st, 255, target_x st, target_y st, true) := by
  simp [combine_touchpads, touch_output, ha, hw]

/-- C4. On a tick in which neither surface is active, the touchpad output is
`(0, 0)` with pressure 0, the smoothed coordinates are reset to 0 and `was_touching`
is cleared, whatever the smoothing state was before. -/
theorem C4_touch_release_immediate (st : process_state)
    (left right : simple_controller_state_t)
    (h1 : touch1_active (controller_blocks st left right) = false)
    (h2 : touch2_active (controller_blocks st left right) = false) :
    (process_controller_data st left right).report.touchpad_1_x = 0 ∧
    (process_controller_data st left right).report.touchpad_1_y = 0 ∧
    (process_controller_data st left right).report.touchpad_1_pressure = 0 ∧
    (process_controller_data st left right).smooth_touchpad_x = 0 ∧
    (process_controller_data st left right).smooth_touchpad_y = 0 ∧
    (process_controller_data st left right).was_touching = false := by
  have h := touch_output_inactive _ h1 h2
  simp only [touch_output, Prod.mk.injEq] at h
  exact h

/-- C4 at a concrete run: the left pad is touched at `(500, 500)` (output
`(-15990, -765)`, `was_touching` set), then released; the release tick reports zero. -/
theorem C4_touch_release_immediate_witness :
    touch_output (process_controller_data startup fresh_pad_500 sample_zero)
      = (-15990, -765, 255, -15990, -765, true) ∧
    touch1_active (controller_blocks
      (process_controller_data startup fresh_pad_500 sample_zero) fresh_idle sample_zero)
      = false ∧
    touch2_active (controller_blocks
      (process_controller_data startup fresh_pad_500 sample_zero) fresh_idle sample_zero)
      = false ∧
    (process_controller_data (process_controller_data startup fresh_pad_500 sample_zero)
      fresh_idle sample_zero).report.touchpad_1_x = 0 :=
  ⟨by rfl, by rfl, by rfl,
    (C4_touch_release_immediate (process_controller_data startup fresh_pad_500 sample_zero)
      fresh_idle sample_zero (by rfl) (by rfl)).1⟩

theorem tdiv_pos (p d : Int) (hd : 0 < d) :
    Int.tdiv p d = if 0 ≤ p then p / d else -((-p) / d) := by
  split
  · next h => exact Int.tdiv_eq_ediv h (le_of_lt hd)
  · next h =>
    have hp : 0 ≤ -p := by omega
    have := Int.tdiv_eq_ediv hp (le_of_lt hd)
    rw [Int.neg_tdiv] at this
    omega

theorem controller_blocks_was_touching (st : process_state)
    (left right : simple_controller_state_t) :
    (controller_blocks st left right).was_touching = st.was_touching := by
  have h2 : ∀ s, (process_right s right).was_touching = s.was_touching := by
    intro s; unfold process_right; split <;> rfl
  have h3 : ∀ s, (process_left s left).was_touching = s.was_touching := by
    intro s; unfold process_left; split <;> rfl
  rw [controller_blocks, h2, h3]
  unfold clear_touchpad_button init_report
  split <;> rfl

/-- Touch-down away from the right edge: with `was_touching = false` and a winning
coordinate pair in `[0, 958] x [0, 942]`, the output is the unfiltered affine target
and `was_touching` becomes true. -/
theorem touch_down_zero_lag_in_range (st : process_state)
    (left right : simple_controller_state_t)
    (hw : st.was_touching = false)
    (ha : (touch1_active (controller_blocks st left right) ||
      touch2_active (controller_blocks st left right)) = true)
    (hx : 0 ≤ active_x (controller_blocks st left right) ∧
      active_x (controller_blocks st left right) ≤ 958)
    (hy : 0 ≤ active_y (controller_blocks st left right) ∧
      active_y (controller_blocks st left right) ≤ 942) :
    touch_output (process_controller_data st left right) =
      (Int.tdiv ((active_x (controller_blocks st left right) - 479) * 65535) 959,
        Int.tdiv ((active_y (controller_blocks st left right) - 471) * 65535) 942, 255,
        Int.tdiv ((active_x (controller_blocks st left right) - 479) * 65535) 959,
        Int.tdiv ((active_y (controller_blocks st left right) - 471) * 65535) 942,
        true) := by
  have hw2 := controller_blocks_was_touching st left right
  rw [hw] at hw2
  rw [process_controller_data, touch_output_touch_down _ ha hw2]
  have etx : target_x (controller_blocks st left right) =
      Int.tdiv ((active_x (controller_blocks st left right) - 479) * 65535) 959 := by
    unfold target_x
    generalize active_x (controller_blocks st left right) = x at hx ⊢
    have h32 : toInt32 ((x - 479) * 65535) = (x - 479) * 65535 := by
      unfold toInt32; omega
    rw [h32, tdiv_pos _ _ (by norm_num)]
    unfold toInt16
    split <;> omega
  have ety : target_y (controller_blocks st left right) =
      Int.tdiv ((active_y (controller_blocks st left right) - 471) * 65535) 942 := by
    unfold target_y
    generalize active_y (controller_blocks st left right) = y at hy ⊢
    have h32 : toInt32 ((y - 471) * 65535) = (y - 471) * 65535 := by
      unfold toInt32; omega
    rw [h32, tdiv_pos _ _ (by norm_num)]
    unfold toInt16
    split <;> omega
  rw [etx, ety]

/-- The scenario of the specification: from the start-up state, only the left
controller is fresh with `padX = padY = 500`.  The mapped coordinates are `(245, 460)`,
the output snaps to `(-15990, -765)` with pressure 255, and no right-sourced field
changes. -/
theorem touch_down_left_pad_500 :
    (controller_blocks startup fresh_pad_500 sample_zero).raw_touch2_x = 245 ∧
    (controller_blocks startup fresh_pad_500 sample_zero).raw_touch2_y = 460 ∧
    touch_output (process_controller_data startup fresh_pad_500 sample_zero)
      = (-15990, -765, 255, -15990, -765, true) ∧
    right_sourced (process_controller_data startup fresh_pad_500 sample_zero).report
      = right_sourced startup.report :=
  ⟨by rfl, by rfl,
    (touch_down_zero_lag_in_range startup fresh_pad_500 sample_zero rfl (by rfl)
      ⟨by decide, by decide⟩ ⟨by decide, by decide⟩).trans (by rfl),
    by rfl⟩

/-- C5 (the code at the failing input). From the start-up state (`was_touching`
false) the right pad is touched at `padY = 1023`.  The right surface is active and wins
with `x = 959`; the affine target `(959 - 479) * 65535 / 959` is `32801`, but the
report carries `-32735`: the quotient does not fit the 16-bit field. -/
theorem C5_touch_down_right_edge :
    startup.was_touching = false ∧
    touch1_active (controller_blocks startup sample_zero fresh_pad_edge) = true ∧
    active_x (controller_blocks startup sample_zero fresh_pad_edge) = 959 ∧
    Int.tdiv ((959 - 479) * 65535) 959 = 32801 ∧
    (process_controller_data startup sample_zero fresh_pad_edge).report.touchpad_1_x
      = -32735 :=
  ⟨by rfl, by rfl, by rfl, by rfl, by rfl⟩

/-- What the touch fusion reads of the right surface and of the smoothing state is
untouched by the left controller's sample. -/
theorem controller_blocks_right_touch (st : process_state)
    (left left' right : simple_controller_state_t) :
    (controller_blocks st left right).raw_touch1_x
      = (controller_blocks st left' right).raw_touch1_x ∧
    (controller_blocks st left right).raw_touch1_y
      = (controller_blocks st left' right).raw_touch1_y ∧
    (controller_blocks st left right).smooth_touchpad_x
      = (controller_blocks st left' right).smooth_touchpad_x ∧
    (controller_blocks st left right).smooth_touchpad_y
      = (controller_blocks st left' right).smooth_touchpad_y ∧
    (controller_blocks st left right).was_touching
      = (controller_blocks st left' right).was_touching := by
  have hr : ∀ s s' : process_state,
      s.raw_touch1_x = s'.raw_touch1_x → s.raw_touch1_y = s'.raw_touch1_y →
      s.smooth_touchpad_x = s'.smooth_touchpad_x →
      s.smooth_touchpad_y = s'.smooth_touchpad_y → s.was_touching = s'.was_touching →
      (process_right s right).raw_touch1_x = (process_right s' right).raw_touch1_x ∧
      (process_right s right).raw_touch1_y = (process_right s' right).raw_touch1_y ∧
      (process_right s right).smooth_touchpad_x
        = (process_right s' right).smooth_touchpad_x ∧
      (process_right s right).smooth_touchpad_y
        = (process_right s' right).smooth_touchpad_y ∧
      (process_right s right).was_touching = (process_right s' right).was_touching := by
    intro s s' h1 h2 h3 h4 h5
    unfold process_right
    split
    · exact ⟨rfl, rfl, h3, h4, h5⟩
    · exact ⟨h1, h2, h3, h4, h5⟩
  have hl : ∀ (s : process_state) (l : simple_controller_state_t),
      (process_left s l).raw_touch1_x = s.raw_touch1_x ∧
      (process_left s l).raw_touch1_y = s.raw_touch1_y ∧
      (process_left s l).smooth_touchpad_x = s.smooth_touchpad_x ∧
      (process_left s l).smooth_touchpad_y = s.smooth_touchpad_y ∧
      (process_left s l).was_touching = s.was_touching := by
    intro s l
    unfold process_left
    split <;> exact ⟨rfl, rfl, rfl, rfl, rfl⟩
  unfold controller_blocks
  obtain ⟨a1, a2, a3, a4, a5⟩ := hl (clear_touchpad_button (init_report st)) left
  obtain ⟨b1, b2, b3, b4, b5⟩ := hl (clear_touchpad_button (init_report st)) left'
  exact hr _ _ (a1.trans b1.symm) (a2.trans b2.symm) (a3.trans b3.symm)
    (a4.trans b4.symm) (a5.trans b5.symm)

/-- When the right surface is active, the touch fusion reads nothing of the left one. -/
theorem touch_output_right_active (s s' : process_state)
    (h : touch1_active s = true)
    (h1 : s.raw_touch1_x = s'.raw_touch1_x) (h2 : s.raw_touch1_y = s'.raw_touch1_y)
    (h3 : s.smooth_touchpad_x = s'.smooth_touchpad_x)
    (h4 : s.smooth_touchpad_y = s'.smooth_touchpad_y)
    (h5 : s.was_touching = s'.was_touching) :
    touch_output (combine_touchpads s) = touch_output (combine_touchpads s') := by
  have h' : touch1_active s' = true := by
    unfold touch1_active at h ⊢
    rw [← h1, ← h2]; exact h
  have tx : target_x s = target_x s' := by
    simp [target_x, active_x, h, h', h1]
  have ty : target_y s = target_y s' := by
    simp [target_y, active_y, h, h', h2]
  simp [combine_touchpads, touch_output, h, h', tx, ty, h3, h4, h5]

/-- C6. On a tick in which the right surface is active (in particular when both
are), the winning coordinates are the right controller's mapped coordinates, and the
touchpad output and the new smoothing state are those of the same tick run with any
other left sample (for instance one whose surface is inactive). -/
theorem C6_right_priority (st : process_state) (left right : simple_controller_state_t)
    (h1 : touch1_active (controller_blocks st left right) = true) :
    active_x (controller_blocks st left right)
      = (controller_blocks st left right).raw_touch1_x ∧
    active_y (controller_blocks st left right)
      = (controller_blocks st left right).raw_touch1_y ∧
    ∀ left' : simple_controller_state_t,
      touch_output (process_controller_data st left' right)
        = touch_output (process_controller_data st left right) := by
  refine ⟨by simp [active_x, h1], by simp [active_y, h1], ?_⟩
  intro left'
  obtain ⟨a1, a2, a3, a4, a5⟩ := controller_blocks_right_touch st left left' right
  exact (touch_output_right_active _ _ h1 a1 a2 a3 a4 a5).symm

/-- C6 at a concrete run: both pads are touched at `(500, 500)`; the right surface
wins with `(714, 482)`, and the output `(16059, 765)` is the one obtained when the left
pad is not touched at all. -/
theorem C6_right_priority_witness :
    touch1_active (controller_blocks startup fresh_pad_500 fresh_pad_500) = true ∧
    touch2_active (controller_blocks startup fresh_pad_500 fresh_pad_500) = true ∧
    touch2_active (controller_blocks startup fresh_idle fresh_pad_500) = false ∧
    active_x (controller_blocks startup fresh_pad_500 fresh_pad_500) = 714 ∧
    active_y (controller_blocks startup fresh_pad_500 fresh_pad_500) = 482 ∧
    touch_output (process_controller_data startup fresh_idle fresh_pad_500)
      = touch_output (process_controller_data startup fresh_pad_500 fresh_pad_500) ∧
    touch_output (process_controller_data startup fresh_pad_500 fresh_pad_500)
      = (16059, 765, 255, 16059, 765, true) :=
  ⟨by rfl, by rfl, by rfl,
    (C6_right_priority startup fresh_pad_500 fresh_pad_500 (by rfl)).1.trans (by rfl),
    (C6_right_priority startup fresh_pad_500 fresh_pad_500 (by rfl)).2.1.trans (by rfl),
    (C6_right_priority startup fresh_pad_500 fresh_pad_500 (by rfl)).2.2 fresh_idle,
    by rfl⟩

/-! ## C7, C8: sticks and triggers -/

/-- C7. For every 8-bit signed `v`, `apply_joystick_deadzone v 5` is 0 when
`-5 < v < 5` and exactly `v * 256` otherwise, and `v * 256` lies in the signed 16-bit
range, so the conversion to `int16_t` never wraps. -/
theorem C7_deadzone (v : Int) (hlo : -128 ≤ v) (hhi : v ≤ 127) :
    apply_joystick_deadzone v 5 = (if -5 < v ∧ v < 5 then 0 else v * 256) ∧
    (-32768 ≤ v * 256 ∧ v * 256 ≤ 32767) ∧
    (-32768 ≤ apply_joystick_deadzone v 5 ∧ apply_joystick_deadzone v 5 ≤ 32767) := by
  unfold apply_joystick_deadzone toInt16
  refine ⟨?_, by omega, ?_⟩
  · split
    · rfl
    · omega
  · split <;> omega

/-- C7 at the boundary values: `-128` gives `-32768`, `127` gives `32512`, `5` gives
`1280`, `-5` gives `-1280`, and `4`, `-4` give 0. -/
theorem C7_deadzone_witness :
    apply_joystick_deadzone (-128) 5 = -32768 ∧
    apply_joystick_deadzone 127 5 = 32512 ∧
    apply_joystick_deadzone 5 5 = 1280 ∧
    apply_joystick_deadzone (-5) 5 = -1280 ∧
    apply_joystick_deadzone 4 5 = 0 ∧
    apply_joystick_deadzone (-4) 5 = 0 :=
  ⟨(C7_deadzone (-128) (by decide) (by decide)).1,
    (C7_deadzone 127 (by decide) (by decide)).1,
    (C7_deadzone 5 (by decide) (by decide)).1,
    (C7_deadzone (-5) (by decide) (by decide)).1,
    (C7_deadzone 4 (by decide) (by decide)).1,
    (C7_deadzone (-4) (by decide) (by decide)).1⟩

theorem process_controller_data_left_sourced_fresh (st : process_state)
    (left right : simple_controller_state_t) (h : left.data_received = true) :
    left_sourced (process_controller_data st left right).report =
      (apply_joystick_deadzone left.stickX 5, apply_joystick_deadzone left.stickY 5,
        toInt16 (((left.trigger : Int) - 128) * 256),
        (if left.buttons &&& 0x01 ≠ 0 then 1 else 0),
        (if left.buttons &&& 0x08 ≠ 0 then 1 else 0),
        (if left.buttons &&& 0x02 ≠ 0 then 1 else 0),
        (if left.buttons &&& 0x04 ≠ 0 then 1 else 0),
        (if left.buttons &&& 0x10 ≠ 0 then 1 else 0),
        (if left.trigger > 128 then 1 else 0),
        (if left.buttons &&& 0x20 ≠ 0 then 1 else 0),
        (if left.buttons &&& 0x80 ≠ 0 then 1 else 0),
        (if left.flags &&& 0x01 ≠ 0 then 1 else 0),
        (if left.flags &&& 0x02 ≠ 0 then 1 else 0)) := by
  rw [process_controller_data, controller_blocks, combine_touchpads_left_sourced,
    process_right_left_sourced]
  unfold process_left
  rw [if_pos h]
  rfl

theorem process_controller_data_trigger_r (st : process_state)
    (left right : simple_controller_state_t) (h : right.data_received = true) :
    (process_controller_data st left right).report.trigger_r
      = toInt16 (((right.trigger : Int) - 128) * 256) ∧
    (process_controller_data st left right).report.button_r_trigger
      = (if right.trigger > 128 then 1 else 0) := by
  have hc := combine_touchpads_right_sourced (controller_blocks st left right)
  simp only [right_sourced, Prod.mk.injEq] at hc
  rw [process_controller_data, hc.2.2.1, hc.2.2.2.2.2.2.2.2.2.2.2.2.2.2.1]
  unfold controller_blocks process_right
  rw [if_pos h]
  exact ⟨rfl, rfl⟩

/-- C8. For a fresh sample with trigger `t` in `0..255` the analog field (`trigger_l`
for the left controller, `trigger_r` for the right one) is exactly `(t - 128) * 256`,
which lies in `[-32768, 32512]`, and the digital bit (`button_l_trigger`,
`button_r_trigger`) is 1 exactly when `t > 128` and 0 otherwise. -/
theorem C8_trigger_mapping (st : process_state) (left right : simple_controller_state_t) :
    (left.data_received = true → left.trigger < 256 →
      (process_controller_data st left right).report.trigger_l
        = ((left.trigger : Int) - 128) * 256 ∧
      (-32768 ≤ ((left.trigger : Int) - 128) * 256 ∧
        ((left.trigger : Int) - 128) * 256 ≤ 32512) ∧
      (process_controller_data st left right).report.button_l_trigger
        = (if left.trigger > 128 then 1 else 0)) ∧
    (right.data_received = true → right.trigger < 256 →
      (process_controller_data st left right).report.trigger_r
        = ((right.trigger : Int) - 128) * 256 ∧
      (-32768 ≤ ((right.trigger : Int) - 128) * 256 ∧
        ((right.trigger : Int) - 128) * 256 ≤ 32512) ∧
      (process_controller_data st left right).report.button_r_trigger
        = (if right.trigger > 128 then 1 else 0)) := by
  constructor
  · intro hl ht
    have h := process_controller_data_left_sourced_fresh st left right hl
    simp only [left_sourced, Prod.mk.injEq] at h
    refine ⟨?_, by omega, h.2.2.2.2.2.2.2.2.1⟩
    rw [h.2.2.1]
    unfold toInt16
    omega
  · intro hr ht
    have h := process_controller_data_trigger_r st left right hr
    refine ⟨?_, by omega, h.2⟩
    rw [h.1]
    unfold toInt16
    omega

/-- C8 at the scenario of the specification: both controllers fresh, left stick
`(3, -3)`, right trigger `200` give `left_x = left_y = 0`, `trigger_r = 18432` and
`button_r_trigger = 1`; a trigger at `128` gives analog 0 and bit 0. -/
theorem C8_trigger_mapping_witness :
    (process_controller_data startup fresh_stick_3 fresh_trigger_200).report.left_x = 0 ∧
    (process_controller_data startup fresh_stick_3 fresh_trigger_200).report.left_y = 0 ∧
    (process_controller_data startup fresh_stick_3 fresh_trigger_200).report.trigger_r
      = 18432 ∧
    (process_controller_data startup fresh_stick_3 fresh_trigger_200).report.button_r_trigger
      = 1 ∧
    (process_controller_data startup fresh_stick_3 fresh_trigger_200).report.trigger_l
      = -32768 ∧
    (process_controller_data startup fresh_stick_3 fresh_trigger_200).report.button_l_trigger
      = 0 :=
  ⟨by rfl, by rfl,
    ((C8_trigger_mapping startup fresh_stick_3 fresh_trigger_200).2 rfl (by decide)).1,
    ((C8_trigger_mapping startup fresh_stick_3 fresh_trigger_200).2 rfl (by decide)).2.2,
    ((C8_trigger_mapping startup fresh_stick_3 fresh_trigger_200).1 rfl (by decide)).1,
    ((C8_trigger_mapping startup fresh_stick_3 fresh_trigger_200).1 rfl (by decide)).2.2⟩

/-! ## binary32 rounding: basic facts -/

theorem size_shiftRight_add (n k : Nat) (h : 2 ^ k ≤ n) : Nat.size (n >>> k) + k = Nat.size n := by
  rw [Nat.shiftRight_eq_div_pow]
  have hk : 0 < 2 ^ k := Nat.two_pow_pos k
  have hm : 0 < n / 2 ^ k := Nat.div_pos h hk
  apply le_antisymm
  · have h1 : Nat.size (n / 2 ^ k) - 1 < Nat.size (n / 2 ^ k) := by
      have : 0 < Nat.size (n / 2 ^ k) := Nat.size_pos.mpr hm
      omega
    have h2 := Nat.lt_size.mp h1
    have h3 : 2 ^ (Nat.size (n / 2 ^ k) - 1 + k) ≤ n := by
      rw [pow_add]
      calc 2 ^ (Nat.size (n / 2 ^ k) - 1) * 2 ^ k ≤ n / 2 ^ k * 2 ^ k :=
            Nat.mul_le_mul_right _ h2
        _ ≤ n := Nat.div_mul_le_self n (2 ^ k)
    have h4 := Nat.lt_size.mpr h3
    omega
  · rw [Nat.size_le, pow_add]
    exact (Nat.div_lt_iff_lt_mul hk).mp (Nat.lt_size_self _)

theorem bit_length_step_spec (k : Nat) (next : Nat → Nat → Nat)
    (hnext : ∀ n a, n < 2 ^ k → next n a = a + Nat.size n) (n a : Nat)
    (hn : n < 2 ^ (2 * k)) : bit_length_step k next n a = a + Nat.size n := by
  unfold bit_length_step
  split
  · next h => exact hnext n a h
  · next h =>
    have h' : 2 ^ k ≤ n := Nat.le_of_not_lt h
    have hs : n >>> k < 2 ^ k := by
      rw [Nat.shiftRight_eq_div_pow]
      apply (Nat.div_lt_iff_lt_mul (Nat.two_pow_pos k)).mpr
      rw [← pow_add]
      have : k + k = 2 * k := by ring
      rw [this]; exact hn
    rw [hnext _ _ hs, ← size_shiftRight_add n k h']
    ring

theorem bit_length_eq_size (n : Nat) : bit_length n = Nat.size n := by
  unfold bit_length
  split
  · next h =>
    have h0 : ∀ n a : Nat, n < 2 ^ 1 → (fun n a => a + n) n a = a + Nat.size n := by
      intro n a hn
      have : n = 0 ∨ n = 1 := by omega
      rcases this with rfl | rfl
      · simp
      · simp
    have h1 := bit_length_step_spec 1 _ h0
    have h2 := bit_length_step_spec 2 _ h1
    have h3 := bit_length_step_spec 4 _ h2
    have h4 := bit_length_step_spec 8 _ h3
    have h5 := bit_length_step_spec 16 _ h4
    have h6 := bit_length_step_spec 32 _ h5
    have h7 := bit_length_step_spec 64 _ h6
    have h8 := bit_length_step_spec 128 _ h7
    have h9 := bit_length_step_spec 256 _ h8
    have h9' : ∀ n a : Nat, n < 2 ^ 512 →
        bit_length_step 256 (bit_length_step 128 (bit_length_step 64
          (bit_length_step 32 (bit_length_step 16 (bit_length_step 8 (bit_length_step 4
            (bit_length_step 2 (bit_length_step 1 (fun n a => a + n))))))))) n a
          = a + Nat.size n :=
      fun n a hn => h9 n a (by rw [show 2 * 256 = 512 from rfl]; exact hn)
    have h10 := bit_length_step_spec 512 _ h9' n 0
      (by rw [show 2 * 512 = 1024 from rfl]; exact h)
    exact h10.trans (Nat.zero_add _)
  · rfl

theorem rne_div_mul_right (n q c : Nat) (hc : 0 < c) :
    rne_div (n * c) (q * c) = rne_div n q := by
  unfold rne_div
  rw [Nat.mul_mod_mul_right, Nat.mul_div_mul_right _ _ hc]
  have e1 : (2 * (n % q * c) < q * c) ↔ (2 * (n % q) < q) := by
    rw [← Nat.mul_assoc]
    exact Nat.mul_lt_mul_right hc
  have e2 : (q * c < 2 * (n % q * c)) ↔ (q < 2 * (n % q)) := by
    rw [← Nat.mul_assoc]
    exact Nat.mul_lt_mul_right hc
  simp only [e1, e2]

theorem rne_div_mul_self (k q : Nat) (hq : 0 < q) : rne_div (k * q) q = k := by
  unfold rne_div
  rw [Nat.mul_mod_left, Nat.mul_div_cancel _ hq]
  simp [hq]

theorem f32_round_natCast (s n : Nat) (hn : 0 < n) :
    f32_round s (n : Int) =
      ((rne_div n (if n < 2 ^ (24 + s) then 2 ^ s else 2 ^ (Nat.size n - 24)) *
        ((if n < 2 ^ (24 + s) then 2 ^ s else 2 ^ (Nat.size n - 24)) / 2 ^ s) : Nat) : Int) := by
  unfold f32_round
  have hs : Int.sign (n : Int) = 1 := Int.sign_eq_one_of_pos (by exact_mod_cast hn)
  simp only [Int.natAbs_ofNat, hs, one_mul, bit_length_eq_size]

theorem size_mul_two_pow (w j : Nat) (hw : 0 < w) : Nat.size (w * 2 ^ j) = Nat.size w + j := by
  rw [← Nat.shiftLeft_eq]
  exact Nat.size_shiftLeft (Nat.pos_iff_ne_zero.mp hw) j

theorem size_eq_of_bounds (w L : Nat) (h1 : 2 ^ (L - 1) ≤ w) (h2 : w < 2 ^ L) (hL : 1 ≤ L) :
    Nat.size w = L := by
  have a := Nat.size_le.mpr h2
  have b := Nat.lt_size.mpr h1
  omega

/-- Rounding a value whose significand `w` has `L ≥ 25` bits: the significand is
rounded to 24 bits. -/
theorem f32_round_normal (s j w L : Nat) (hj : s ≤ j) (hL : 25 ≤ L)
    (h1 : 2 ^ (L - 1) ≤ w) (h2 : w < 2 ^ L) :
    f32_round s ((w * 2 ^ j : Nat) : Int) =
      ((rne_div w (2 ^ (L - 24)) * 2 ^ (L - 24 + j - s) : Nat) : Int) := by
  have hw : 0 < w := lt_of_lt_of_le (Nat.two_pow_pos _) h1
  have hn : 0 < w * 2 ^ j := Nat.mul_pos hw (Nat.two_pow_pos _)
  rw [f32_round_natCast s _ hn]
  have hsz : Nat.size (w * 2 ^ j) = L + j := by
    rw [size_mul_two_pow w j hw, size_eq_of_bounds w L h1 h2 (by omega)]
  have hge : ¬ (w * 2 ^ j < 2 ^ (24 + s)) := by
    intro h
    have h3 : 2 ^ (24 + s) ≤ w * 2 ^ j := by
      calc 2 ^ (24 + s) = 2 ^ 24 * 2 ^ s := pow_add 2 24 s
        _ ≤ 2 ^ (L - 1) * 2 ^ j :=
          Nat.mul_le_mul (Nat.pow_le_pow_right (by norm_num) (by omega))
            (Nat.pow_le_pow_right (by norm_num) hj)
        _ ≤ w * 2 ^ j := Nat.mul_le_mul_right _ h1
    omega
  rw [if_neg hge, hsz]
  have hq : 2 ^ (L + j - 24) = 2 ^ (L - 24) * 2 ^ j := by
    rw [← pow_add]; congr 1; omega
  rw [hq, rne_div_mul_right _ _ _ (Nat.two_pow_pos j), ← hq,
    Nat.pow_div (by omega) (by norm_num)]
  congr 3
  omega

/-- A value with a significand below `2^24` is representable: rounding returns it. -/
theorem f32_round_exact (s j w : Nat) (hj : s ≤ j) (hw : w < 2 ^ 24) :
    f32_round s ((w * 2 ^ j : Nat) : Int) = ((w * 2 ^ (j - s) : Nat) : Int) := by
  rcases Nat.eq_zero_or_pos w with rfl | hw0
  · simp [f32_round]
  have hn : 0 < w * 2 ^ j := Nat.mul_pos hw0 (Nat.two_pow_pos _)
  rw [f32_round_natCast s _ hn]
  have hsz := size_mul_two_pow w j hw0
  have hszw : Nat.size w ≤ 24 := Nat.size_le.mpr hw
  have hszw0 : 0 < Nat.size w := Nat.size_pos.mpr hw0
  split
  · have e : w * 2 ^ j = (w * 2 ^ (j - s)) * 2 ^ s := by
      rw [Nat.mul_assoc, ← pow_add]; congr 2; omega
    rw [e, rne_div_mul_self _ _ (Nat.two_pow_pos s), Nat.div_self (Nat.two_pow_pos s),
      Nat.mul_one]
  · next hge =>
    have hle : 2 ^ (24 + s) ≤ w * 2 ^ j := Nat.le_of_not_lt hge
    have hs2 : 24 + s < Nat.size (w * 2 ^ j) := Nat.lt_size.mpr hle
    rw [hsz] at hs2 ⊢
    have e : w * 2 ^ j = (w * 2 ^ (24 - Nat.size w)) * 2 ^ (Nat.size w + j - 24) := by
      rw [Nat.mul_assoc, ← pow_add]; congr 2; omega
    rw [e, rne_div_mul_self _ _ (Nat.two_pow_pos _), Nat.pow_div (by omega) (by norm_num),
      Nat.mul_assoc, ← pow_add]
    congr 3
    omega

theorem blt_true {a b : Nat} (h : a < b) : Nat.blt a b = true :=
  Nat.ble_eq_true_of_le h

theorem blt_false {a b : Nat} (h : ¬ a < b) : Nat.blt a b = false := by
  cases hb : Nat.blt a b
  · rfl
  · exact absurd (Nat.le_of_ble_eq_true hb) h

theorem rne_fast_eq (n q : Nat) : rne_fast n q = rne_div n q := by
  have e : rne_fast n q =
      cond (Nat.blt (2 * (n % q)) q) (n / q)
        (cond (Nat.blt q (2 * (n % q))) (n / q + 1)
          (cond (Nat.beq (n / q % 2) 0) (n / q) (n / q + 1))) := rfl
  rw [e]
  unfold rne_div
  by_cases h1 : 2 * (n % q) < q
  · rw [blt_true h1, if_pos h1]; rfl
  · rw [blt_false h1, if_neg h1]
    by_cases h2 : q < 2 * (n % q)
    · rw [blt_true h2, if_pos h2]; rfl
    · rw [blt_false h2, if_neg h2]
      by_cases h3 : n / q % 2 = 0
      · rw [h3, if_pos rfl]; rfl
      · rw [if_neg h3]
        cases hb : Nat.beq (n / q % 2) 0
        · rfl
        · exact absurd (Nat.eq_of_beq_eq_true hb) h3

theorem has_bits_spec (L w : Nat) (h : has_bits L w = true) :
    2 ^ (L - 1) ≤ w ∧ w < 2 ^ L := by
  have h' : (Nat.ble (2 ^ (L - 1)) w && Nat.blt w (2 ^ L)) = true := h
  rw [Bool.and_eq_true] at h'
  exact ⟨Nat.le_of_ble_eq_true h'.1, Nat.blt_eq.mp h'.2⟩

theorem f32_round_nonneg (s : Nat) (m : Int) (h : 0 ≤ m) : 0 ≤ f32_round s m := by
  unfold f32_round
  exact mul_nonneg (Int.sign_nonneg.mpr h) (Int.ofNat_nonneg _)

theorem round_fast_spec (s L0 j w : Nat) (hj : s ≤ j) :
    dyadic_val (round_fast s L0 j w) = f32_round s ((w * 2 ^ j : Nat) : Int) := by
  unfold round_fast dyadic_val
  simp only [Nat.sub_eq, Nat.add_eq, Nat.pow_eq, Nat.succ_eq_add_one]
  cases hc : Nat.blt w 16777216
  · have hw : 2 ^ 24 ≤ w := by
      have : ¬ w < 16777216 := by
        intro h; rw [← Nat.blt_eq] at h; rw [h] at hc; cases hc
      omega
    cases h1 : has_bits L0 w
    · cases h2 : has_bits (L0 + 1) w
      · simp only [cond_false, pow_zero, mul_one]
        exact Int.natAbs_of_nonneg (f32_round_nonneg _ _ (Int.ofNat_nonneg _))
      · simp only [cond_false, cond_true]
        obtain ⟨a, b⟩ := has_bits_spec _ _ h2
        have hL : 25 ≤ L0 + 1 := by
          by_contra hlt
          have : 2 ^ (L0 + 1) ≤ 2 ^ 24 := Nat.pow_le_pow_right (by norm_num) (by omega)
          omega
        rw [f32_round_normal s j w (L0 + 1) hj hL a b, rne_fast_eq]
        have e1 : L0 - 23 = L0 + 1 - 24 := by omega
        rw [e1]
    · simp only [cond_false, cond_true]
      obtain ⟨a, b⟩ := has_bits_spec _ _ h1
      have hL : 25 ≤ L0 := by
        by_contra hlt
        have : 2 ^ L0 ≤ 2 ^ 24 := Nat.pow_le_pow_right (by norm_num) (by omega)
        omega
      rw [f32_round_normal s j w L0 hj hL a b, rne_fast_eq]
  · simp only [cond_true]
    have hw : w < 2 ^ 24 := by
      have : w < 16777216 := by rw [← Nat.blt_eq]; exact hc
      omega
    rw [f32_round_exact s j w hj hw]

theorem add_fast_spec (L0 : Nat) (a b : Nat × Nat) :
    dyadic_val (add_fast L0 a b) = f32_add (dyadic_val a) (dyadic_val b) := by
  unfold add_fast f32_add
  simp only [Nat.sub_eq, Nat.add_eq, Nat.mul_eq, Nat.pow_eq]
  cases hc : Nat.ble a.2 b.2
  · have hle : b.2 ≤ a.2 := by
      have : ¬ a.2 ≤ b.2 := by
        intro h; rw [Nat.ble_eq_true_of_le h] at hc; cases hc
      omega
    simp only [cond_false]
    rw [round_fast_spec 0 _ _ _ (Nat.zero_le _)]
    congr 1
    unfold dyadic_val
    have e : a.1 * 2 ^ a.2 = a.1 * 2 ^ (a.2 - b.2) * 2 ^ b.2 := by
      rw [Nat.mul_assoc, ← pow_add]; congr 2; omega
    rw [e]
    push_cast
    ring
  · have hle : a.2 ≤ b.2 := Nat.le_of_ble_eq_true hc
    simp only [cond_true]
    rw [round_fast_spec 0 _ _ _ (Nat.zero_le _)]
    congr 1
    unfold dyadic_val
    have e : b.1 * 2 ^ b.2 = b.1 * 2 ^ (b.2 - a.2) * 2 ^ a.2 := by
      rw [Nat.mul_assoc, ← pow_add]; congr 2; omega
    rw [e]
    push_cast
    ring

theorem mul_fast_spec (L0 A t v : Nat) :
    dyadic_val (round_fast 149 L0 (t + 149) (A * v)) =
      f32_mul ((A * 2 ^ t : Nat) : Int) (f32_of_int (v : Int)) := by
  rw [round_fast_spec 149 _ _ _ (Nat.le_add_left _ _)]
  unfold f32_mul f32_of_int f32_unit
  refine congrArg (f32_round 149) ?_
  rw [← Nat.cast_mul, ← Nat.cast_mul, pow_add]
  refine congrArg Nat.cast ?_
  generalize (2 : Nat) ^ 149 = U
  ring

theorem lowpass_fast_spec (A t B tb k v : Nat)
    (hb : f32_sub (f32_of_int 1) ((A * 2 ^ t : Nat) : Int) = ((B * 2 ^ tb : Nat) : Int)) :
    dyadic_val (lowpass_fast A t B tb k v) =
      lowpass_f32 (v : Int) (v : Int) ((A * 2 ^ t : Nat) : Int) := by
  unfold lowpass_fast lowpass_f32
  simp only [Nat.add_eq, Nat.mul_eq]
  rw [add_fast_spec, mul_fast_spec, mul_fast_spec, hb]

theorem f32_trunc_dyadic (p : Nat × Nat) :
    f32_trunc (dyadic_val p) = ((p.1 * 2 ^ p.2 / 2 ^ 149 : Nat) : Int) := by
  unfold f32_trunc dyadic_val f32_unit
  rw [Int.tdiv_eq_ediv (Int.ofNat_nonneg _) (Int.ofNat_nonneg _)]
  norm_cast

theorem fixed_point_check_sound (A t B tb k v : Nat)
    (hb : f32_sub (f32_of_int 1) ((A * 2 ^ t : Nat) : Int) = ((B * 2 ^ tb : Nat) : Int))
    (h : fixed_point_check A t B tb k v = true) :
    f32_trunc (lowpass_f32 (v : Int) (v : Int) ((A * 2 ^ t : Nat) : Int)) = (v : Int) := by
  rw [← lowpass_fast_spec A t B tb k v hb, f32_trunc_dyadic]
  have e : (lowpass_fast A t B tb k v).1 * 2 ^ (lowpass_fast A t B tb k v).2 / 2 ^ 149 = v :=
    Nat.eq_of_beq_eq_true h
  rw [e]

theorem all_in_range_spec (f : Nat → Bool) (k lo : Nat) (h : all_in_range f k lo = true)
    (i : Nat) (h1 : lo ≤ i) (h2 : i < lo + 2 ^ k) : f i = true := by
  induction k generalizing lo with
  | zero =>
    have : i = lo := by simp at h2; omega
    rw [this]; exact h
  | succ k ih =>
    unfold all_in_range at h
    rw [Bool.and_eq_true] at h
    rw [pow_succ] at h2
    by_cases hi : i < lo + 2 ^ k
    · exact ih lo h.1 h1 hi
    · exact ih (lo + 2 ^ k) h.2 (by omega) (by omega)

theorem check_binades_spec (A t B tb K : Nat) (h : check_binades A t B tb K = true)
    (v : Nat) (h1 : 1 ≤ v) (h2 : v < 2 ^ (K + 1)) :
    ∃ k, fixed_point_check A t B tb k v = true := by
  induction K with
  | zero =>
    have : v = 1 := by simp at h2; omega
    subst this
    exact ⟨0, h⟩
  | succ K ih =>
    unfold check_binades at h
    rw [Bool.and_eq_true] at h
    by_cases hv : v < 2 ^ (K + 1)
    · exact ih h.1 hv
    · refine ⟨K + 1, all_in_range_spec _ _ _ h.2 v (by omega) ?_⟩
      rw [pow_succ] at h2
      omega

/-! ## Oddness of the filter's float value -/

theorem f32_round_neg (s : Nat) (m : Int) : f32_round s (-m) = -f32_round s m := by
  unfold f32_round
  simp only [Int.natAbs_neg, Int.sign_neg, neg_mul]

theorem lowpass_f32_neg (n p alpha : Int) :
    lowpass_f32 (-n) (-p) alpha = -lowpass_f32 n p alpha := by
  unfold lowpass_f32 f32_add f32_mul f32_of_int
  rw [neg_mul, neg_mul, mul_neg, mul_neg, f32_round_neg, f32_round_neg, ← neg_add,
    f32_round_neg]

theorem f32_trunc_neg (a : Int) : f32_trunc (-a) = -f32_trunc a := by
  unfold f32_trunc
  exact Int.neg_tdiv _ _

/-- A fixed point on `0 .. 32768` is a fixed point of the filter on the whole signed
16-bit range. -/
theorem filter_fixed_of_nat (alpha : Int)
    (H : ∀ v : Nat, v ≤ 32768 → f32_trunc (lowpass_f32 (v : Int) (v : Int) alpha) = (v : Int))
    (v : Int) (h1 : -32768 ≤ v) (h2 : v ≤ 32767) : gyro_lowpass_filter v v alpha = v := by
  unfold gyro_lowpass_filter
  rcases Int.le_total 0 v with hv | hv
  · obtain ⟨n, rfl⟩ := Int.eq_ofNat_of_zero_le hv
    rw [H n (by omega)]
    unfold toInt16
    omega
  · obtain ⟨n, hn⟩ := Int.eq_ofNat_of_zero_le (Int.neg_nonneg.mpr hv)
    have e : v = -(n : Int) := by omega
    subst e
    rw [lowpass_f32_neg, f32_trunc_neg, H n (by omega)]
    unfold toInt16
    omega

/-! ## The fixed points of the three configured filters -/

theorem one_sub_touchpad_alpha :
    f32_sub (f32_of_int 1) ((13421773 * 2 ^ 123 : Nat) : Int)
      = ((13421773 * 2 ^ 125 : Nat) : Int) := by decide!

theorem one_sub_gyro_alpha :
    f32_sub (f32_of_int 1) ((10737418 * 2 ^ 122 : Nat) : Int)
      = ((15435039 * 2 ^ 125 : Nat) : Int) := by decide!

set_option maxRecDepth 100000 in
theorem touchpad_check_11 : check_binades 13421773 123 13421773 125 11 = true := by
  decide!

set_option maxRecDepth 100000 in
theorem touchpad_check_12 :
    all_in_range (fixed_point_check 13421773 123 13421773 125 12) 12 4096 = true := by
  decide!

set_option maxRecDepth 100000 in
theorem touchpad_check_13 :
    all_in_range (fixed_point_check 13421773 123 13421773 125 13) 13 8192 = true := by
  decide!

set_option maxRecDepth 100000 in
theorem touchpad_check_14 :
    all_in_range (fixed_point_check 13421773 123 13421773 125 14) 14 16384 = true := by
  decide!

theorem touchpad_check_15 : fixed_point_check 13421773 123 13421773 125 15 32768 = true := by
  decide!

theorem touchpad_check_zero :
    f32_trunc (lowpass_f32 0 0 ((13421773 * 2 ^ 123 : Nat) : Int)) = 0 := by decide!

theorem lowpass_fixed_touchpad (v : Nat) (hv : v ≤ 32768) :
    f32_trunc (lowpass_f32 (v : Int) (v : Int) touchpad_alpha) = (v : Int) := by
  have key : v = 0 ∨ ∃ k, fixed_point_check 13421773 123 13421773 125 k v = true := by
    rcases Nat.eq_zero_or_pos v with h0 | h0
    · exact Or.inl h0
    right
    by_cases c11 : v < 2 ^ (11 + 1)
    · exact check_binades_spec _ _ _ _ 11 touchpad_check_11 v h0 c11
    by_cases c12 : v < 4096 + 2 ^ 12
    · exact ⟨12, all_in_range_spec _ _ _ touchpad_check_12 v (by omega) c12⟩
    by_cases c13 : v < 8192 + 2 ^ 13
    · exact ⟨13, all_in_range_spec _ _ _ touchpad_check_13 v (by omega) c13⟩
    by_cases c14 : v < 16384 + 2 ^ 14
    · exact ⟨14, all_in_range_spec _ _ _ touchpad_check_14 v (by omega) c14⟩
    have : v = 32768 := by omega
    subst this
    exact ⟨15, touchpad_check_15⟩
  rcases key with rfl | ⟨k, hk⟩
  · exact touchpad_check_zero
  · exact fixed_point_check_sound _ _ _ _ k v one_sub_touchpad_alpha hk

set_option maxRecDepth 100000 in
theorem gyro_check_11 : check_binades 10737418 122 15435039 125 11 = true := by
  decide!

set_option maxRecDepth 100000 in
theorem gyro_check_12 :
    all_in_range (fixed_point_check 10737418 122 15435039 125 12) 12 4096 = true := by
  decide!

set_option maxRecDepth 100000 in
theorem gyro_check_13 :
    all_in_range (fixed_point_check 10737418 122 15435039 125 13) 13 8192 = true := by
  decide!

set_option maxRecDepth 100000 in
theorem gyro_check_14 :
    all_in_range (fixed_point_check 10737418 122 15435039 125 14) 14 16384 = true := by
  decide!

theorem gyro_check_15 : fixed_point_check 10737418 122 15435039 125 15 32768 = true := by
  decide!

theorem gyro_check_zero :
    f32_trunc (lowpass_f32 0 0 ((10737418 * 2 ^ 122 : Nat) : Int)) = 0 := by decide!

theorem lowpass_fixed_gyro (v : Nat) (hv : v ≤ 32768) :
    f32_trunc (lowpass_f32 (v : Int) (v : Int) gyro_alpha) = (v : Int) := by
  have key : v = 0 ∨ ∃ k, fixed_point_check 10737418 122 15435039 125 k v = true := by
    rcases Nat.eq_zero_or_pos v with h0 | h0
    · exact Or.inl h0
    right
    by_cases c11 : v < 2 ^ (11 + 1)
    · exact check_binades_spec _ _ _ _ 11 gyro_check_11 v h0 c11
    by_cases c12 : v < 4096 + 2 ^ 12
    · exact ⟨12, all_in_range_spec _ _ _ gyro_check_12 v (by omega) c12⟩
    by_cases c13 : v < 8192 + 2 ^ 13
    · exact ⟨13, all_in_range_spec _ _ _ gyro_check_13 v (by omega) c13⟩
    by_cases c14 : v < 16384 + 2 ^ 14
    · exact ⟨14, all_in_range_spec _ _ _ gyro_check_14 v (by omega) c14⟩
    have : v = 32768 := by omega
    subst this
    exact ⟨15, gyro_check_15⟩
  rcases key with rfl | ⟨k, hk⟩
  · exact gyro_check_zero
  · exact fixed_point_check_sound _ _ _ _ k v one_sub_gyro_alpha hk

theorem one_sub_accel_alpha :
    f32_sub (f32_of_int 1) accel_alpha = ((2 ^ 148 : Nat) : Int) := by decide!

/-- With `alpha = 0.5f` every operation of the filter is exact on equal inputs. -/
theorem lowpass_fixed_accel (v : Nat) (hv : v ≤ 32768) :
    f32_trunc (lowpass_f32 (v : Int) (v : Int) accel_alpha) = (v : Int) := by
  have hw : v < 2 ^ 24 := by
    have : (2 : Nat) ^ 24 = 16777216 := by norm_num
    omega
  have hm : f32_mul ((2 ^ 148 : Nat) : Int) (f32_of_int (v : Int))
      = ((v * 2 ^ 148 : Nat) : Int) := by
    unfold f32_mul f32_of_int f32_unit
    have e : ((2 ^ 148 : Nat) : Int) * ((v : Int) * ((2 ^ 149 : Nat) : Int))
        = ((v * 2 ^ (148 + 149) : Nat) : Int) := by
      rw [← Nat.cast_mul, ← Nat.cast_mul, pow_add]
      refine congrArg Nat.cast ?_
      generalize (2 : Nat) ^ 149 = U
      generalize (2 : Nat) ^ 148 = W
      ring
    rw [e, f32_round_exact 149 (148 + 149) v (by omega) hw]
  unfold lowpass_f32
  rw [one_sub_accel_alpha]
  unfold accel_alpha
  rw [hm]
  unfold f32_add
  have e2 : ((v * 2 ^ 148 : Nat) : Int) + ((v * 2 ^ 148 : Nat) : Int)
      = ((v * 2 ^ (148 + 1) : Nat) : Int) := by
    rw [← Nat.cast_add]
    refine congrArg Nat.cast ?_
    rw [pow_succ]
    generalize (2 : Nat) ^ 148 = W
    ring
  rw [e2, f32_round_exact 0 (148 + 1) v (Nat.zero_le _) hw]
  unfold f32_trunc f32_unit
  rw [Int.tdiv_eq_ediv (Int.ofNat_nonneg _) (Int.ofNat_nonneg _)]
  norm_cast
  exact Nat.mul_div_cancel v (Nat.two_pow_pos _)

/-! ## C9: fixed points of the low-pass filter -/

/-- C9 (as stated, refuted). `alpha = 0.22f` is a binary32 value in `(0, 1]`, yet
`gyro_lowpass_filter 59 59 alpha` is 58: the two rounded products add up to a float
just below 59, and the conversion to `int16_t` truncates. -/
theorem C9_fixed_point_counterexample :
    0 < alpha_0_22 ∧ alpha_0_22 ≤ (f32_unit : Int) ∧
    f32_round 0 alpha_0_22 = alpha_0_22 ∧
    gyro_lowpass_filter 59 59 alpha_0_22 = 58 := by
  decide!

/-- C9 (amended). For every 16-bit signed `v` and each of the three configured
smoothing factors (`0.08f` for the gyro, `0.5f` for the accelerometer, `0.2f` for the
touchpad), `gyro_lowpass_filter v v alpha = v`. -/
theorem C9_fixed_point_configured (v : Int) (h1 : -32768 ≤ v) (h2 : v ≤ 32767) :
    gyro_lowpass_filter v v gyro_alpha = v ∧
    gyro_lowpass_filter v v accel_alpha = v ∧
    gyro_lowpass_filter v v touchpad_alpha = v :=
  ⟨filter_fixed_of_nat gyro_alpha lowpass_fixed_gyro v h1 h2,
    filter_fixed_of_nat accel_alpha lowpass_fixed_accel v h1 h2,
    filter_fixed_of_nat touchpad_alpha lowpass_fixed_touchpad v h1 h2⟩

/-- C9 at the ends of the 16-bit range. -/
theorem C9_fixed_point_configured_witness :
    gyro_lowpass_filter 32767 32767 gyro_alpha = 32767 ∧
    gyro_lowpass_filter (-32768) (-32768) touchpad_alpha = -32768 :=
  ⟨(C9_fixed_point_configured 32767 (by decide) (by decide)).1,
    (C9_fixed_point_configured (-32768) (by decide) (by decide)).2.2⟩

/-! ## Rounding is monotone and has a relative error of at most `2^-24` -/

theorem rne_div_ge (n q : Nat) : n / q ≤ rne_div n q := by
  unfold rne_div
  split_ifs <;> omega

theorem rne_div_le (n q : Nat) : rne_div n q ≤ n / q + 1 := by
  unfold rne_div
  split_ifs <;> omega

theorem rne_div_le_of_le_mul (n q k : Nat) (hq : 0 < q) (h : n ≤ k * q) :
    rne_div n q ≤ k := by
  by_cases hk : n / q < k
  · exact le_trans (rne_div_le n q) hk
  · have h1 : k ≤ n / q := Nat.le_of_not_lt hk
    have h2 : k * q ≤ n := (Nat.le_div_iff_mul_le hq).mp h1
    have h3 : n = k * q := le_antisymm h h2
    rw [h3, rne_div_mul_self k q hq]

theorem le_rne_div_of_mul_le (n q k : Nat) (hq : 0 < q) (h : k * q ≤ n) :
    k ≤ rne_div n q :=
  le_trans ((Nat.le_div_iff_mul_le hq).mpr h) (rne_div_ge n q)

theorem rne_div_mono (n n' q : Nat) (h : n ≤ n') : rne_div n q ≤ rne_div n' q := by
  have hd : n / q ≤ n' / q := Nat.div_le_div_right h
  rcases Nat.lt_or_ge (n / q) (n' / q) with hlt | hge
  · exact le_trans (rne_div_le n q) (le_trans hlt (rne_div_ge n' q))
  · have he : n / q = n' / q := le_antisymm hd hge
    have e1 := Nat.div_add_mod' n q
    have e2 := Nat.div_add_mod' n' q
    rw [← he] at e2
    unfold rne_div
    rw [← he]
    generalize n / q * q = kq at e1 e2
    generalize n / q = k
    generalize n % q = r at e1 ⊢
    generalize n' % q = r' at e2 ⊢
    split_ifs <;> omega

theorem rne_div_err (n q : Nat) : 2 * (rne_div n q * q) ≤ 2 * n + q := by
  have e1 := Nat.div_add_mod' n q
  unfold rne_div
  split_ifs
  · omega
  · rw [Nat.add_mul, Nat.one_mul]; omega
  · omega
  · rw [Nat.add_mul, Nat.one_mul]; omega

theorem round_exp_ge (s n : Nat) : s ≤ round_exp s n := by
  unfold round_exp
  split
  · exact le_refl s
  · next h =>
    have : 24 + s < Nat.size n := Nat.lt_size.mpr (Nat.le_of_not_lt h)
    omega

theorem round_exp_lt (s n : Nat) : n < 2 ^ (round_exp s n + 24) := by
  unfold round_exp
  split
  · next h => rw [Nat.add_comm]; exact h
  · next h =>
    have h1 : 24 + s < Nat.size n := Nat.lt_size.mpr (Nat.le_of_not_lt h)
    have h2 : Nat.size n - 24 + 24 = Nat.size n := by omega
    rw [h2]
    exact Nat.lt_size_self n

theorem round_exp_gt (s n : Nat) (h : s < round_exp s n) : 2 ^ (round_exp s n + 23) ≤ n := by
  unfold round_exp at h ⊢
  split at h
  · omega
  · next hn =>
    rw [if_neg hn]
    apply Nat.lt_size.mp
    omega

theorem round_exp_mono (s n n' : Nat) (h : n ≤ n') : round_exp s n ≤ round_exp s n' := by
  unfold round_exp
  split
  · split
    · exact le_refl s
    · next h1 h2 =>
      have : 24 + s < Nat.size n' := Nat.lt_size.mpr (Nat.le_of_not_lt h2)
      omega
  · next h1 =>
    have h2 : ¬ n' < 2 ^ (24 + s) := fun h3 => h1 (lt_of_le_of_lt h h3)
    rw [if_neg h2]
    have := Nat.size_le_size h
    omega

theorem round_nat_mono (s n n' : Nat) (h : n ≤ n') : round_nat s n ≤ round_nat s n' := by
  unfold round_nat
  have hm := round_exp_mono s n n' h
  have hs := round_exp_ge s n
  rcases Nat.lt_or_ge (round_exp s n) (round_exp s n') with hlt | hge
  · have hT : 2 ^ (round_exp s n' + 23) ≤ n' := round_exp_gt s n' (by omega)
    have hn : n < 2 ^ (round_exp s n + 24) := round_exp_lt s n
    generalize round_exp s n = e at *
    generalize round_exp s n' = e' at *
    have a1 : rne_div n (2 ^ e) ≤ 2 ^ (e' + 23 - e) := by
      apply rne_div_le_of_le_mul _ _ _ (Nat.two_pow_pos e)
      rw [← pow_add]
      have : e' + 23 - e + e = e' + 23 := by omega
      rw [this]
      exact le_trans (le_of_lt hn) (Nat.pow_le_pow_right (by norm_num) (by omega))
    have a2 : 2 ^ 23 ≤ rne_div n' (2 ^ e') := by
      apply le_rne_div_of_mul_le _ _ _ (Nat.two_pow_pos e')
      rw [← pow_add, Nat.add_comm]
      exact hT
    calc rne_div n (2 ^ e) * 2 ^ (e - s) ≤ 2 ^ (e' + 23 - e) * 2 ^ (e - s) :=
          Nat.mul_le_mul_right _ a1
      _ = 2 ^ 23 * 2 ^ (e' - s) := by
          rw [← pow_add, ← pow_add]; congr 1; omega
      _ ≤ rne_div n' (2 ^ e') * 2 ^ (e' - s) := Nat.mul_le_mul_right _ a2
  · have he : round_exp s n = round_exp s n' := le_antisymm hm hge
    rw [he]
    exact Nat.mul_le_mul_right _ (rne_div_mono _ _ _ h)

theorem round_nat_err (s n : Nat) :
    2 ^ 24 * (round_nat s n * 2 ^ s) ≤ (2 ^ 24 + 1) * n + 2 ^ (23 + s) := by
  unfold round_nat
  have hs := round_exp_ge s n
  have hq : 2 ^ 23 * 2 ^ round_exp s n ≤ n + 2 ^ (23 + s) := by
    rcases Nat.eq_or_lt_of_le hs with he | hlt
    · rw [← he, ← pow_add]; omega
    · have h1 := round_exp_gt s n hlt
      have h2 : 23 + round_exp s n = round_exp s n + 23 := Nat.add_comm _ _
      rw [← pow_add, h2]
      exact le_trans h1 (Nat.le_add_right _ _)
  have herr := rne_div_err n (2 ^ round_exp s n)
  generalize round_exp s n = e at *
  have e1 : rne_div n (2 ^ e) * 2 ^ (e - s) * 2 ^ s = rne_div n (2 ^ e) * 2 ^ e := by
    rw [Nat.mul_assoc, ← pow_add]; congr 2; omega
  rw [e1]
  generalize rne_div n (2 ^ e) * 2 ^ e = V at *
  generalize (2 : Nat) ^ e = q at *
  generalize (2 : Nat) ^ (23 + s) = c at *
  norm_num at *
  omega

theorem round_nat_err_scaled (s y : Nat) :
    2 ^ 24 * round_nat s (y * 2 ^ s) ≤ (2 ^ 24 + 1) * y + 2 ^ 23 := by
  have h := round_nat_err s (y * 2 ^ s)
  have e : (2 ^ 24 + 1) * (y * 2 ^ s) + 2 ^ (23 + s)
      = ((2 ^ 24 + 1) * y + 2 ^ 23) * 2 ^ s := by
    rw [pow_add]; ring
  rw [e, ← Nat.mul_assoc] at h
  exact Nat.le_of_mul_le_mul_right h (Nat.two_pow_pos s)

theorem f32_round_eq_round_nat (s : Nat) (m : Int) :
    f32_round s m = Int.sign m * (round_nat s m.natAbs : Int) := by
  unfold f32_round round_nat round_exp
  simp only [bit_length_eq_size]
  split
  · rw [Nat.div_self (Nat.two_pow_pos s), Nat.sub_self, pow_zero]
  · next h =>
    have : 24 + s < Nat.size m.natAbs := Nat.lt_size.mpr (Nat.le_of_not_lt h)
    rw [Nat.pow_div (by omega) (by norm_num)]

theorem f32_round_natCast_eq (s n : Nat) : f32_round s (n : Int) = (round_nat s n : Int) := by
  rw [f32_round_eq_round_nat]
  rcases Nat.eq_zero_or_pos n with rfl | h
  · simp [round_nat, rne_div]
  · rw [Int.sign_eq_one_of_pos (by exact_mod_cast h), one_mul, Int.natAbs_ofNat]

theorem f32_round_mono (s : Nat) (m m' : Int) (h : m ≤ m') :
    f32_round s m ≤ f32_round s m' := by
  rcases Int.le_total 0 m with h0 | h0
  · obtain ⟨n, rfl⟩ := Int.eq_ofNat_of_zero_le h0
    obtain ⟨n', rfl⟩ := Int.eq_ofNat_of_zero_le (le_trans h0 h)
    rw [f32_round_natCast_eq, f32_round_natCast_eq]
    exact_mod_cast round_nat_mono s n n' (by exact_mod_cast h)
  · obtain ⟨n, hn⟩ := Int.eq_ofNat_of_zero_le (Int.neg_nonneg.mpr h0)
    have e : m = -(n : Int) := by omega
    subst e
    rw [f32_round_neg, f32_round_natCast_eq]
    rcases Int.le_total 0 m' with h1 | h1
    · obtain ⟨n', rfl⟩ := Int.eq_ofNat_of_zero_le h1
      rw [f32_round_natCast_eq]
      have a : (0 : Int) ≤ (round_nat s n : Int) := Int.ofNat_nonneg _
      have b : (0 : Int) ≤ (round_nat s n' : Int) := Int.ofNat_nonneg _
      omega
    · obtain ⟨n', hn'⟩ := Int.eq_ofNat_of_zero_le (Int.neg_nonneg.mpr h1)
      have e' : m' = -(n' : Int) := by omega
      subst e'
      rw [f32_round_neg, f32_round_natCast_eq]
      have : (round_nat s n' : Int) ≤ (round_nat s n : Int) := by
        exact_mod_cast round_nat_mono s n' n (by omega)
      omega

/-! ## The float value of the filter stays within the 16-bit range -/

theorem f32_mul_le (a K : Nat) (x : Int) (hx : x ≤ (K : Int)) :
    f32_mul (a : Int) (f32_of_int x) ≤ (round_nat 149 (a * K * 2 ^ 149) : Int) := by
  unfold f32_mul f32_of_int f32_unit
  rw [← f32_round_natCast_eq]
  apply f32_round_mono
  rw [Nat.cast_mul, Nat.cast_mul, mul_assoc]
  have hU : (0 : Int) ≤ ((2 ^ 149 : Nat) : Int) := Int.ofNat_nonneg _
  exact mul_le_mul_of_nonneg_left (mul_le_mul_of_nonneg_right hx hU) (Int.ofNat_nonneg a)

theorem f32_mul_ge (a K : Nat) (x : Int) (hx : -(K : Int) ≤ x) :
    -(round_nat 149 (a * K * 2 ^ 149) : Int) ≤ f32_mul (a : Int) (f32_of_int x) := by
  unfold f32_mul f32_of_int f32_unit
  rw [← f32_round_natCast_eq, ← f32_round_neg]
  apply f32_round_mono
  rw [Nat.cast_mul, Nat.cast_mul, mul_assoc, ← mul_neg, ← neg_mul]
  have hU : (0 : Int) ≤ ((2 ^ 149 : Nat) : Int) := Int.ofNat_nonneg _
  exact mul_le_mul_of_nonneg_left (mul_le_mul_of_nonneg_right hx hU) (Int.ofNat_nonneg a)

theorem f32_sub_one_eq (a : Nat) (ha : a ≤ f32_unit) :
    f32_sub (f32_of_int 1) (a : Int) = (round_nat 0 (f32_unit - a) : Int) := by
  unfold f32_sub f32_of_int
  rw [← f32_round_natCast_eq, one_mul, Nat.cast_sub ha]

/-- For `0 ≤ alpha ≤ 1` and 16-bit inputs the float value of the filter lies between
`-32768.5` and `32767.5`. -/
theorem lowpass_f32_bounds (new prev alpha : Int)
    (hn : -32768 ≤ new ∧ new ≤ 32767) (hp : -32768 ≤ prev ∧ prev ≤ 32767)
    (ha : 0 ≤ alpha ∧ alpha ≤ (f32_unit : Int)) :
    -((65537 * 2 ^ 148 : Nat) : Int) ≤ lowpass_f32 new prev alpha ∧
    lowpass_f32 new prev alpha ≤ ((65535 * 2 ^ 148 : Nat) : Int) := by
  obtain ⟨a, rfl⟩ := Int.eq_ofNat_of_zero_le ha.1
  have haU : a ≤ f32_unit := by exact_mod_cast ha.2
  unfold lowpass_f32
  rw [f32_sub_one_eq a haU]
  have hb := round_nat_err 0 (f32_unit - a)
  generalize round_nat 0 (f32_unit - a) = b at hb ⊢
  have u1 := f32_mul_le a 32767 new (by exact_mod_cast hn.2)
  have u2 := f32_mul_le b 32767 prev (by exact_mod_cast hp.2)
  have l1 := f32_mul_ge a 32768 new (by exact_mod_cast hn.1)
  have l2 := f32_mul_ge b 32768 prev (by exact_mod_cast hp.1)
  have e1 := round_nat_err_scaled 149 (a * 32767)
  have e2 := round_nat_err_scaled 149 (b * 32767)
  have e3 := round_nat_err_scaled 149 (a * 32768)
  have e4 := round_nat_err_scaled 149 (b * 32768)
  generalize round_nat 149 (a * 32767 * 2 ^ 149) = P1 at u1 e1
  generalize round_nat 149 (b * 32767 * 2 ^ 149) = P2 at u2 e2
  generalize round_nat 149 (a * 32768 * 2 ^ 149) = Q1 at l1 e3
  generalize round_nat 149 (b * 32768 * 2 ^ 149) = Q2 at l2 e4
  have hU : f32_unit = 713623846352979940529142984724747568191373312 := by
    unfold f32_unit; norm_num
  rw [hU] at hb haU
  have hhi : P1 + P2 ≤ 65535 * 2 ^ 148 := by
    norm_num at hb e1 e2 ⊢
    omega
  have hlo : Q1 + Q2 ≤ 65537 * 2 ^ 148 := by
    norm_num at hb e3 e4 ⊢
    omega
  have xhi : f32_round 0 (((65535 * 2 ^ 148 : Nat) : Int)) = ((65535 * 2 ^ 148 : Nat) : Int) :=
    f32_round_exact 0 148 65535 (Nat.zero_le _) (by norm_num)
  have xlo : f32_round 0 (((65537 * 2 ^ 148 : Nat) : Int)) = ((65537 * 2 ^ 148 : Nat) : Int) :=
    f32_round_exact 0 148 65537 (Nat.zero_le _) (by norm_num)
  unfold f32_add
  constructor
  · rw [← xlo, ← f32_round_neg]
    apply f32_round_mono
    have : ((Q1 + Q2 : Nat) : Int) ≤ ((65537 * 2 ^ 148 : Nat) : Int) := by exact_mod_cast hlo
    push_cast at this ⊢
    omega
  · rw [← xhi]
    apply f32_round_mono
    have : ((P1 + P2 : Nat) : Int) ≤ ((65535 * 2 ^ 148 : Nat) : Int) := by exact_mod_cast hhi
    push_cast at this ⊢
    omega

/-! ## C10: the filter truncates -/

/-- For `0 ≤ alpha ≤ 1` and 16-bit inputs the conversion to `int16_t` never wraps, and
the result is the float value with its fraction discarded. -/
theorem filter_eq_trunc (new prev alpha : Int)
    (hn : -32768 ≤ new ∧ new ≤ 32767) (hp : -32768 ≤ prev ∧ prev ≤ 32767)
    (ha : 0 ≤ alpha ∧ alpha ≤ (f32_unit : Int)) :
    gyro_lowpass_filter new prev alpha = f32_trunc (lowpass_f32 new prev alpha) ∧
    (-32768 ≤ gyro_lowpass_filter new prev alpha ∧
      gyro_lowpass_filter new prev alpha ≤ 32767) ∧
    (0 ≤ lowpass_f32 new prev alpha →
      gyro_lowpass_filter new prev alpha * (f32_unit : Int) ≤ lowpass_f32 new prev alpha ∧
      lowpass_f32 new prev alpha
        < (gyro_lowpass_filter new prev alpha + 1) * (f32_unit : Int)) ∧
    (lowpass_f32 new prev alpha ≤ 0 →
      (gyro_lowpass_filter new prev alpha - 1) * (f32_unit : Int)
        < lowpass_f32 new prev alpha ∧
      lowpass_f32 new prev alpha ≤ gyro_lowpass_filter new prev alpha * (f32_unit : Int)) := by
  have hb := lowpass_f32_bounds new prev alpha hn hp ha
  unfold gyro_lowpass_filter f32_trunc toInt16
  generalize lowpass_f32 new prev alpha = F at hb ⊢
  have hU : ((f32_unit : Nat) : Int) = 713623846352979940529142984724747568191373312 := by
    unfold f32_unit; norm_num
  rw [hU, tdiv_pos _ _ (by norm_num)]
  norm_num at hb
  split
  · refine ⟨?_, ?_, ?_, ?_⟩ <;> omega
  · refine ⟨?_, ?_, ?_, ?_⟩ <;> omega

/-- C10 (as stated, refuted). With `new = 3`, `prev = 0` and `alpha = 0.2f` the value
`alpha * new + (1 - alpha) * prev` is `3 * alpha`, about `0.6`; its nearest integer is 1
(also for the exact `alpha = 1/5`), but the filter returns 0; with `new = -3` it
returns 0 as well, not -1. -/
theorem C10_rounding_counterexample :
    rne_div (3 * Int.toNat touchpad_alpha) f32_unit = 1 ∧
    rne_div 3 5 = 1 ∧
    gyro_lowpass_filter 3 0 touchpad_alpha = 0 ∧
    gyro_lowpass_filter (-3) 0 touchpad_alpha = 0 := by
  decide!

/-- C10 (amended). For every 16-bit signed `new` and `prev` and every `alpha` in
`[0, 1]`, `gyro_lowpass_filter new prev alpha` is the single-precision value of
`alpha * new + (1 - alpha) * prev` truncated toward zero: the conversion to `int16_t`
does not wrap, a non-negative value `F` gives the integer `r` with `r ≤ F < r + 1`, and
a non-positive one the integer `r` with `r - 1 < F ≤ r`. -/
theorem C10_lowpass_truncates (new prev alpha : Int)
    (hn : -32768 ≤ new ∧ new ≤ 32767) (hp : -32768 ≤ prev ∧ prev ≤ 32767)
    (ha : 0 ≤ alpha ∧ alpha ≤ (f32_unit : Int)) :
    gyro_lowpass_filter new prev alpha = f32_trunc (lowpass_f32 new prev alpha) ∧
    (0 ≤ lowpass_f32 new prev alpha →
      gyro_lowpass_filter new prev alpha * (f32_unit : Int) ≤ lowpass_f32 new prev alpha ∧
      lowpass_f32 new prev alpha
        < (gyro_lowpass_filter new prev alpha + 1) * (f32_unit : Int)) ∧
    (lowpass_f32 new prev alpha ≤ 0 →
      (gyro_lowpass_filter new prev alpha - 1) * (f32_unit : Int)
        < lowpass_f32 new prev alpha ∧
      lowpass_f32 new prev alpha ≤ gyro_lowpass_filter new prev alpha * (f32_unit : Int)) :=
  ⟨(filter_eq_trunc new prev alpha hn hp ha).1, (filter_eq_trunc new prev alpha hn hp ha).2.2⟩

/-- C10 at `new = 3`, `prev = 0`, `alpha = 0.2f`: the float value is `0.6f`
(`10066330 * 2^-24`), and the filter returns its integer part 0. -/
theorem C10_lowpass_truncates_witness :
    lowpass_f32 3 0 touchpad_alpha = ((10066330 * 2 ^ 125 : Nat) : Int) ∧
    gyro_lowpass_filter 3 0 touchpad_alpha = f32_trunc (lowpass_f32 3 0 touchpad_alpha) ∧
    f32_trunc (lowpass_f32 3 0 touchpad_alpha) = 0 :=
  ⟨by decide!,
    (C10_lowpass_truncates 3 0 touchpad_alpha ⟨by decide, by decide⟩ ⟨by decide, by decide⟩
      ⟨by decide!, by decide!⟩).1,
    by decide!⟩

/-! ## C11, C12: the linear map and the two halves of the touchpad -/

theorem tdiv_eq_sign_mul (p d : Int) :
    Int.tdiv p d = Int.sign p * Int.sign d * ((p.natAbs / d.natAbs : Nat) : Int) := by
  rcases Int.natAbs_eq p with hp | hp <;> rcases Int.natAbs_eq d with hd | hd
  · rw [hp, hd]
    generalize p.natAbs = a
    generalize d.natAbs = b
    rcases Nat.eq_zero_or_pos a with rfl | ha
    · simp
    rcases Nat.eq_zero_or_pos b with rfl | hb
    · simp
    rw [Int.natAbs_ofNat, Int.natAbs_ofNat,
      Int.sign_eq_one_of_pos (by exact_mod_cast ha),
      Int.sign_eq_one_of_pos (by exact_mod_cast hb),
      Int.tdiv_eq_ediv (Int.ofNat_nonneg _) (Int.ofNat_nonneg _)]
    simp
  · rw [hp, hd]
    generalize p.natAbs = a
    generalize d.natAbs = b
    rcases Nat.eq_zero_or_pos a with rfl | ha
    · simp
    rcases Nat.eq_zero_or_pos b with rfl | hb
    · simp
    rw [Int.tdiv_neg, Int.natAbs_neg, Int.natAbs_ofNat, Int.natAbs_ofNat, Int.sign_neg,
      Int.sign_eq_one_of_pos (by exact_mod_cast ha),
      Int.sign_eq_one_of_pos (by exact_mod_cast hb),
      Int.tdiv_eq_ediv (Int.ofNat_nonneg _) (Int.ofNat_nonneg _)]
    simp
  · rw [hp, hd]
    generalize p.natAbs = a
    generalize d.natAbs = b
    rcases Nat.eq_zero_or_pos a with rfl | ha
    · simp
    rcases Nat.eq_zero_or_pos b with rfl | hb
    · simp
    rw [Int.neg_tdiv, Int.natAbs_neg, Int.natAbs_ofNat, Int.natAbs_ofNat, Int.sign_neg,
      Int.sign_eq_one_of_pos (by exact_mod_cast ha),
      Int.sign_eq_one_of_pos (by exact_mod_cast hb),
      Int.tdiv_eq_ediv (Int.ofNat_nonneg _) (Int.ofNat_nonneg _)]
    simp
  · rw [hp, hd]
    generalize p.natAbs = a
    generalize d.natAbs = b
    rcases Nat.eq_zero_or_pos a with rfl | ha
    · simp
    rcases Nat.eq_zero_or_pos b with rfl | hb
    · simp
    rw [Int.neg_tdiv, Int.tdiv_neg, Int.natAbs_neg, Int.natAbs_neg, Int.natAbs_ofNat,
      Int.natAbs_ofNat, Int.sign_neg, Int.sign_neg,
      Int.sign_eq_one_of_pos (by exact_mod_cast ha),
      Int.sign_eq_one_of_pos (by exact_mod_cast hb),
      Int.tdiv_eq_ediv (Int.ofNat_nonneg _) (Int.ofNat_nonneg _)]
    simp

/-- C11. For all integers with `in_max ≠ in_min`, `map` returns the product
`(x - in_min) * (out_max - out_min)` divided by `in_max - in_min` with the quotient
rounded toward zero (the sign of the exact quotient times the floor of the quotient of
the absolute values), plus `out_min`; the quotient never exceeds the exact one in
magnitude; and `map in_min = out_min`, `map in_max = out_max`. -/
theorem C11_map_truncates (x in_min in_max out_min out_max : Int) (h : in_max ≠ in_min) :
    map x in_min in_max out_min out_max =
      Int.sign ((x - in_min) * (out_max - out_min)) * Int.sign (in_max - in_min) *
        ((((x - in_min) * (out_max - out_min)).natAbs / (in_max - in_min).natAbs : Nat) : Int)
        + out_min ∧
    (map x in_min in_max out_min out_max - out_min).natAbs * (in_max - in_min).natAbs
      ≤ ((x - in_min) * (out_max - out_min)).natAbs ∧
    map in_min in_min in_max out_min out_max = out_min ∧
    map in_max in_min in_max out_min out_max = out_max := by
  have hd : in_max - in_min ≠ 0 := sub_ne_zero.mpr h
  refine ⟨?_, ?_, ?_, ?_⟩
  · unfold map
    rw [tdiv_eq_sign_mul]
  · unfold map
    rw [add_sub_cancel_right, Int.natAbs_tdiv]
    exact Nat.div_mul_le_self _ _
  · unfold map
    simp
  · unfold map
    rw [Int.mul_tdiv_cancel_left _ hd]
    ring

/-- C11 on the two calls with an inverted output range: the negative products
`-479` and `-962724` are rounded toward zero (flooring would give 478 and 0). -/
theorem C11_map_truncates_witness :
    map 1 0 1023 479 0 = 479 ∧ map 1022 0 1023 942 0 = 1 ∧
    (-479 : Int) / 1023 + 479 = 478 ∧ (-962724 : Int) / 1023 + 942 = 0 ∧
    map 0 0 1023 480 959 = 480 ∧ map 1023 0 1023 480 959 = 959 :=
  ⟨by decide, by decide, by decide, by decide,
    (C11_map_truncates 0 0 1023 480 959 (by decide)).2.2.1,
    (C11_map_truncates 1023 0 1023 480 959 (by decide)).2.2.2⟩

theorem combine_touchpads_raw (st : process_state) :
    (combine_touchpads st).raw_touch1_x = st.raw_touch1_x ∧
    (combine_touchpads st).raw_touch1_y = st.raw_touch1_y ∧
    (combine_touchpads st).raw_touch2_x = st.raw_touch2_x ∧
    (combine_touchpads st).raw_touch2_y = st.raw_touch2_y := by
  unfold combine_touchpads
  split <;> exact ⟨rfl, rfl, rfl, rfl⟩

/-- The mapped coordinates written by a fresh right sample. -/
theorem raw_touch1_fresh (st : process_state) (left right : simple_controller_state_t)
    (h : right.data_received = true) :
    (controller_blocks st left right).raw_touch1_x =
      (if right.padX ≠ 0 ∨ right.padY ≠ 0 then toUInt16 (map right.padY 0 1023 480 959)
        else 0) ∧
    (controller_blocks st left right).raw_touch1_y =
      (if right.padX ≠ 0 ∨ right.padY ≠ 0 then toUInt16 (map right.padX 0 1023 942 0)
        else 0) := by
  unfold controller_blocks process_right
  rw [if_pos h]
  by_cases hp : right.padX ≠ 0 ∨ right.padY ≠ 0
  · simp [hp]
  · simp [hp]

/-- The mapped coordinates written by a fresh left sample. -/
theorem raw_touch2_fresh (st : process_state) (left right : simple_controller_state_t)
    (h : left.data_received = true) :
    (controller_blocks st left right).raw_touch2_x =
      (if left.padX ≠ 0 ∨ left.padY ≠ 0 then toUInt16 (map left.padY 0 1023 479 0)
        else 0) ∧
    (controller_blocks st left right).raw_touch2_y =
      (if left.padX ≠ 0 ∨ left.padY ≠ 0 then toUInt16 (map left.padX 0 1023 0 942)
        else 0) := by
  have hr : ∀ s : process_state,
      (process_right s right).raw_touch2_x = s.raw_touch2_x ∧
      (process_right s right).raw_touch2_y = s.raw_touch2_y := by
    intro s; unfold process_right; split <;> exact ⟨rfl, rfl⟩
  unfold controller_blocks
  rw [(hr _).1, (hr _).2]
  unfold process_left
  rw [if_pos h]
  by_cases hp : left.padX ≠ 0 ∨ left.padY ≠ 0
  · simp [hp]
  · simp [hp]

/-- The two calls of `map` with an increasing output range, on a non-negative pad
value. -/
theorem map_pad_up (v lo span : Int) (h0 : 0 ≤ v) (hs : 0 ≤ span) :
    map v 0 1023 lo (lo + span) = v * span / 1023 + lo := by
  unfold map
  rw [sub_zero, sub_zero, add_sub_cancel_left,
    Int.tdiv_eq_ediv (mul_nonneg h0 hs) (by norm_num)]

/-- The two calls of `map` with a decreasing output range, on a non-negative pad
value. -/
theorem map_pad_down (v hi : Int) (h0 : 0 ≤ v) (hh : 0 ≤ hi) :
    map v 0 1023 hi 0 = hi - v * hi / 1023 := by
  unfold map
  rw [sub_zero, sub_zero, zero_sub, mul_neg, Int.neg_tdiv,
    Int.tdiv_eq_ediv (mul_nonneg h0 hh) (by norm_num)]
  ring

/-- The four calls of `map` on a pad value in the device range `0..1023`. -/
theorem map_pad_bounds (v : Int) (h0 : 0 ≤ v) (h1 : v ≤ 1023) :
    (480 ≤ map v 0 1023 480 959 ∧ map v 0 1023 480 959 ≤ 959) ∧
    (0 ≤ map v 0 1023 942 0 ∧ map v 0 1023 942 0 ≤ 942) ∧
    (0 ≤ map v 0 1023 479 0 ∧ map v 0 1023 479 0 ≤ 479) ∧
    (0 ≤ map v 0 1023 0 942 ∧ map v 0 1023 0 942 ≤ 942) := by
  have e1 := map_pad_up v 480 479 h0 (by norm_num)
  have e2 := map_pad_down v 942 h0 (by norm_num)
  have e3 := map_pad_down v 479 h0 (by norm_num)
  have e4 := map_pad_up v 0 942 h0 (by norm_num)
  norm_num at e1 e4
  rw [e1, e2, e3, e4]
  refine ⟨⟨?_, ?_⟩, ⟨?_, ?_⟩, ⟨?_, ?_⟩, ⟨?_, ?_⟩⟩ <;> omega

/-- C12. For a fresh sample with `padX`, `padY` in `0..1023`, not both zero, the right
controller's mapped coordinates satisfy `480 ≤ raw_touch1_x ≤ 959` and
`0 ≤ raw_touch1_y ≤ 942`, and the left controller's satisfy `0 ≤ raw_touch2_x ≤ 479`
and `0 ≤ raw_touch2_y ≤ 942`: the two X ranges do not overlap. -/
theorem C12_disjoint_halves (st : process_state) (left right : simple_controller_state_t) :
    (right.data_received = true →
      (0 ≤ right.padX ∧ right.padX ≤ 1023) → (0 ≤ right.padY ∧ right.padY ≤ 1023) →
      (right.padX ≠ 0 ∨ right.padY ≠ 0) →
      (480 ≤ (process_controller_data st left right).raw_touch1_x ∧
        (process_controller_data st left right).raw_touch1_x ≤ 959) ∧
      (0 ≤ (process_controller_data st left right).raw_touch1_y ∧
        (process_controller_data st left right).raw_touch1_y ≤ 942)) ∧
    (left.data_received = true →
      (0 ≤ left.padX ∧ left.padX ≤ 1023) → (0 ≤ left.padY ∧ left.padY ≤ 1023) →
      (left.padX ≠ 0 ∨ left.padY ≠ 0) →
      (0 ≤ (process_controller_data st left right).raw_touch2_x ∧
        (process_controller_data st left right).raw_touch2_x ≤ 479) ∧
      (0 ≤ (process_controller_data st left right).raw_touch2_y ∧
        (process_controller_data st left right).raw_touch2_y ≤ 942)) := by
  obtain ⟨c1, c2, c3, c4⟩ := combine_touchpads_raw (controller_blocks st left right)
  constructor
  · intro h hx hy hp
    obtain ⟨e1, e2⟩ := raw_touch1_fresh st left right h
    rw [process_controller_data, c1, c2, e1, e2, if_pos hp, if_pos hp]
    obtain ⟨a, -, -, -⟩ := map_pad_bounds right.padY hy.1 hy.2
    obtain ⟨-, b, -, -⟩ := map_pad_bounds right.padX hx.1 hx.2
    unfold toUInt16
    omega
  · intro h hx hy hp
    obtain ⟨e1, e2⟩ := raw_touch2_fresh st left right h
    rw [process_controller_data, c3, c4, e1, e2, if_pos hp, if_pos hp]
    obtain ⟨-, -, a, -⟩ := map_pad_bounds left.padY hy.1 hy.2
    obtain ⟨-, -, -, b⟩ := map_pad_bounds left.padX hx.1 hx.2
    unfold toUInt16
    omega

/-- C12 at the corners of the pad: `(1023, 1023)` maps to `(959, 0)` on the right and
to `(0, 942)` on the left; `(1, 1)` maps to `(480, 942)` on the right and to `(479, 0)`
on the left. -/
theorem C12_disjoint_halves_witness :
    (process_controller_data startup fresh_pad_max fresh_pad_max).raw_touch1_x = 959 ∧
    (process_controller_data startup fresh_pad_max fresh_pad_max).raw_touch1_y = 0 ∧
    (process_controller_data startup fresh_pad_max fresh_pad_max).raw_touch2_x = 0 ∧
    (process_controller_data startup fresh_pad_max fresh_pad_max).raw_touch2_y = 942 ∧
    (480 ≤ (process_controller_data startup fresh_pad_min fresh_pad_min).raw_touch1_x ∧
      (process_controller_data startup fresh_pad_min fresh_pad_min).raw_touch1_x ≤ 959) ∧
    (0 ≤ (process_controller_data startup fresh_pad_min fresh_pad_min).raw_touch2_x ∧
      (process_controller_data startup fresh_pad_min fresh_pad_min).raw_touch2_x ≤ 479) :=
  ⟨by rfl, by rfl, by rfl, by rfl,
    ((C12_disjoint_halves startup fresh_pad_min fresh_pad_min).1 rfl
      ⟨by decide, by decide⟩ ⟨by decide, by decide⟩ (Or.inl (by decide))).1,
    ((C12_disjoint_halves startup fresh_pad_min fresh_pad_min).2 rfl
      ⟨by decide, by decide⟩ ⟨by decide, by decide⟩ (Or.inl (by decide))).1⟩

/-! ## C13, C14: the affine target and the binary pressure -/

/-- The target computation on a coordinate pair in `[0, 958] x [0, 942]`: neither the
32-bit product nor the conversion to `int16_t` wraps. -/
theorem target_in_range (st : process_state)
    (hx : 0 ≤ active_x st ∧ active_x st ≤ 958) (hy : 0 ≤ active_y st ∧ active_y st ≤ 942) :
    target_x st = Int.tdiv ((active_x st - 479) * 65535) 959 ∧
    target_y st = Int.tdiv ((active_y st - 471) * 65535) 942 ∧
    (-32768 ≤ Int.tdiv ((active_x st - 479) * 65535) 959 ∧
      Int.tdiv ((active_x st - 479) * 65535) 959 ≤ 32767) ∧
    (-32768 ≤ Int.tdiv ((active_y st - 471) * 65535) 942 ∧
      Int.tdiv ((active_y st - 471) * 65535) 942 ≤ 32767) := by
  unfold target_x target_y
  generalize active_x st = x at hx ⊢
  generalize active_y st = y at hy ⊢
  have h32x : toInt32 ((x - 479) * 65535) = (x - 479) * 65535 := by
    unfold toInt32; omega
  have h32y : toInt32 ((y - 471) * 65535) = (y - 471) * 65535 := by
    unfold toInt32; omega
  rw [h32x, h32y, tdiv_pos _ _ (by norm_num), tdiv_pos _ _ (by norm_num)]
  unfold toInt16
  refine ⟨?_, ?_, ⟨?_, ?_⟩, ⟨?_, ?_⟩⟩ <;> split_ifs <;> omega

/-- C13 (the code at the failing input). The right pad is touched at `padY = 1023`:
the winning coordinate is `x = 959`, inside `[0, 959]`; the quotient
`(959 - 479) * 65535 / 959` is `32801`, above `32767`, and the 16-bit `target_x` is
`-32735`, a negative value. -/
theorem C13_target_x_wraps :
    active_x (controller_blocks startup sample_zero fresh_pad_edge) = 959 ∧
    active_y (controller_blocks startup sample_zero fresh_pad_edge) = 942 ∧
    Int.tdiv ((959 - 479) * 65535) 959 = 32801 ∧
    target_x (controller_blocks startup sample_zero fresh_pad_edge) = -32735 ∧
    target_y (controller_blocks startup sample_zero fresh_pad_edge) = 32767 :=
  ⟨by rfl, by rfl, by rfl, by rfl, by rfl⟩

theorem combine_touchpads_pressure (st : process_state) :
    (combine_touchpads st).report.touchpad_1_pressure
      = (if touch1_active st = true ∨ touch2_active st = true then 255 else 0) ∧
    ((combine_touchpads st).was_touching = true ↔
      (touch1_active st = true ∨ touch2_active st = true)) ∧
    (combine_touchpads st).report.touchpad_1_x = (combine_touchpads st).smooth_touchpad_x ∧
    (combine_touchpads st).report.touchpad_1_y = (combine_touchpads st).smooth_touchpad_y := by
  unfold combine_touchpads
  cases h1 : touch1_active st <;> cases h2 : touch2_active st <;> simp

/-- C14. After every call, `touchpad_1_pressure` is 255 if at least one surface is
active in this tick (after the threshold re-derivation) and 0 otherwise; `was_touching`
is true exactly when the pressure is 255; and `touchpad_1_x`, `touchpad_1_y` equal the
persisted `smooth_touchpad_x`, `smooth_touchpad_y`. -/
theorem C14_binary_pressure (st : process_state) (left right : simple_controller_state_t) :
    (process_controller_data st left right).report.touchpad_1_pressure
      = (if touch1_active (controller_blocks st left right) = true ∨
          touch2_active (controller_blocks st left right) = true then 255 else 0) ∧
    ((process_controller_data st left right).report.touchpad_1_pressure = 255 ∨
      (process_controller_data st left right).report.touchpad_1_pressure = 0) ∧
    ((process_controller_data st left right).was_touching = true ↔
      (process_controller_data st left right).report.touchpad_1_pressure = 255) ∧
    (process_controller_data st left right).report.touchpad_1_x
      = (process_controller_data st left right).smooth_touchpad_x ∧
    (process_controller_data st left right).report.touchpad_1_y
      = (process_controller_data st left right).smooth_touchpad_y := by
  obtain ⟨h1, h2, h3, h4⟩ := combine_touchpads_pressure (controller_blocks st left right)
  unfold process_controller_data
  refine ⟨h1, ?_, ?_, h3, h4⟩
  · rw [h1]; split_ifs <;> simp
  · rw [h2, h1]; split_ifs with h <;> simp [h]

/-! ## C15: the constant report fields -/

/-- What a state must satisfy for the constant fields to come out right: once the
first call has run, the constant fields are in place (the first call itself zeroes the
report and sets the header). -/
theorem constant_fields_step (st : process_state) (left right : simple_controller_state_t)
    (hi : st.report_initialized = true →
      (constant_fields st.report).2.2.2 =
        (1, 1, 100, 0, List.replicate 17 0, 0, 0, 0, 0, 0, 0, 0, 0, 0, 0)) :
    constant_fields (process_controller_data st left right).report =
      (0, 0, 0, 1, 1, 100, 0, List.replicate 17 0, 0, 0, 0, 0, 0, 0, 0, 0, 0, 0) := by
  have h1 : ∀ s, constant_fields (combine_touchpads s).report
      = (0, 0, 0, (constant_fields s.report).2.2.2) := by
    intro s; unfold combine_touchpads; split <;> rfl
  have h2 : ∀ s, (constant_fields (process_right s right).report).2.2.2
      = (constant_fields s.report).2.2.2 := by
    intro s; unfold process_right; split <;> rfl
  have h3 : ∀ s, (constant_fields (process_left s left).report).2.2.2
      = (constant_fields s.report).2.2.2 := by
    intro s; unfold process_left; split <;> rfl
  have h4 : ∀ s, (constant_fields (clear_touchpad_button s).report).2.2.2
      = (constant_fields s.report).2.2.2 := fun s => rfl
  have h5 : (constant_fields (init_report st).report).2.2.2
      = (1, 1, 100, 0, List.replicate 17 0, 0, 0, 0, 0, 0, 0, 0, 0, 0, 0) := by
    unfold init_report
    cases hr : st.report_initialized
    · rfl
    · exact hi hr
  rw [process_controller_data, controller_blocks, h1, h2, h3, h4, h5]

theorem run_ticks_append (samples : List (simple_controller_state_t × simple_controller_state_t))
    (left right : simple_controller_state_t) :
    run_ticks (samples ++ [(left, right)])
      = process_controller_data (run_ticks samples) left right := by
  unfold run_ticks
  rw [List.foldl_append]
  rfl

/-- Every state reached by a run of ticks has a consistent report. -/
theorem run_ticks_consistent
    (samples : List (simple_controller_state_t × simple_controller_state_t)) :
    statics_consistent (run_ticks samples) := by
  induction samples using List.reverseRecOn with
  | nil => exact startup_consistent
  | append_singleton samples p _ =>
    obtain ⟨left, right⟩ := p
    rw [run_ticks_append]
    exact process_controller_data_consistent _ _ _

/-- Every state reached by a run of ticks has the constant fields in place once the
first call has run. -/
theorem run_ticks_constant
    (samples : List (simple_controller_state_t × simple_controller_state_t)) :
    (run_ticks samples).report_initialized = true →
      (constant_fields (run_ticks samples).report).2.2.2 =
        (1, 1, 100, 0, List.replicate 17 0, 0, 0, 0, 0, 0, 0, 0, 0, 0, 0) := by
  induction samples using List.reverseRecOn with
  | nil => exact fun h => by cases h
  | append_singleton samples p ih =>
    obtain ⟨left, right⟩ := p
    rw [run_ticks_append]
    intro _
    rw [constant_fields_step _ left right ih]

/-- C15. In every state reachable from start-up by any sequence of ticks with any
samples, the report after one more call has `touchpad_2_x = touchpad_2_y =
touchpad_2_pressure = 0`, `report_id = 0x01`, `plug_status = 0x01`,
`charge_percent = 100`, `imu_timestamp_us = 0`, all 17 reserved bytes 0, and every button
bit that no controller feeds equal to 0. -/
theorem C15_constant_fields
    (samples : List (simple_controller_state_t × simple_controller_state_t))
    (left right : simple_controller_state_t) :
    constant_fields (process_controller_data (run_ticks samples) left right).report =
      (0, 0, 0, 0x01, 0x01, 100, 0,
        [0, 0, 0, 0, 0, 0, 0, 0, 0, 0, 0, 0, 0, 0, 0, 0, 0],
        0, 0, 0, 0, 0, 0, 0, 0, 0, 0) :=
  constant_fields_step _ left right (run_ticks_constant samples)

/-! ## C16: no cross-controller contamination -/

theorem process_right_determined (s s' : process_state) (right : simple_controller_state_t)
    (h1 : right_sourced s.report = right_sourced s'.report)
    (h2 : imu_state s = imu_state s') :
    right_sourced (process_right s right).report
      = right_sourced (process_right s' right).report ∧
    imu_state (process_right s right) = imu_state (process_right s' right) := by
  unfold process_right
  split
  · simp only [imu_state, Prod.mk.injEq] at h2
    obtain ⟨a1, a2, a3, a4, a5, a6⟩ := h2
    simp only [right_sourced, imu_state, a1, a2, a3, a4, a5, a6]
    exact ⟨trivial, trivial⟩
  · exact ⟨h1, h2⟩

theorem process_left_imu_state (s : process_state) (left : simple_controller_state_t) :
    imu_state (process_left s left) = imu_state s := by
  unfold process_left
  split <;> rfl

theorem combine_touchpads_imu_state (s : process_state) :
    imu_state (combine_touchpads s) = imu_state s := by
  unfold combine_touchpads
  split <;> rfl

/-- C16. Two runs of one tick from the same state that differ only in the left
controller's sample give identical right-sourced report fields and identical persisted
IMU filter state; two runs that differ only in the right controller's sample give
identical left-sourced report fields. -/
theorem C16_no_cross_contamination (st : process_state)
    (left left' right right' : simple_controller_state_t) :
    right_sourced (process_controller_data st left right).report
      = right_sourced (process_controller_data st left' right).report ∧
    imu_state (process_controller_data st left right)
      = imu_state (process_controller_data st left' right) ∧
    left_sourced (process_controller_data st left right).report
      = left_sourced (process_controller_data st left right').report := by
  have hr := process_right_determined
    (process_left (clear_touchpad_button (init_report st)) left)
    (process_left (clear_touchpad_button (init_report st)) left') right
    ((process_left_right_sourced _ _).trans (process_left_right_sourced _ _).symm)
    ((process_left_imu_state _ _).trans (process_left_imu_state _ _).symm)
  refine ⟨?_, ?_, ?_⟩
  · rw [process_controller_data, process_controller_data, controller_blocks, controller_blocks,
      combine_touchpads_right_sourced, combine_touchpads_right_sourced]
    exact hr.1
  · rw [process_controller_data, process_controller_data, controller_blocks, controller_blocks,
      combine_touchpads_imu_state, combine_touchpads_imu_state]
    exact hr.2
  · rw [process_controller_data, process_controller_data, controller_blocks, controller_blocks,
      combine_touchpads_left_sourced, combine_touchpads_left_sourced,
      process_right_left_sourced, process_right_left_sourced]

/-! ## C17: the scheduler -/

theorem loop_iteration_fire (s : main_state) (now : Int)
    (left right : simple_controller_state_t) (h : toUInt32 (now - s.last_report_time) ≥ 4) :
    loop_iteration s now left right =
      { last_report_time := now
        st := process_controller_data s.st left right
        reports_sent := s.reports_sent + 1 } := by
  unfold loop_iteration report_due
  rw [if_pos (decide_eq_true h)]

theorem loop_iteration_idle (s : main_state) (now : Int)
    (left right : simple_controller_state_t)
    (h : ¬ toUInt32 (now - s.last_report_time) ≥ 4) :
    loop_iteration s now left right = s := by
  unfold loop_iteration report_due
  rw [if_neg (by simp [h])]

/-- Starting from the reference time of `s`, every fire is at least 4 ms (modulo
`2^32`) after the previous one. -/
theorem fire_times_chain
    (inputs : List (Int × simple_controller_state_t × simple_controller_state_t))
    (s : main_state) :
    List.Chain (fun a b => toUInt32 (b - a) ≥ 4) s.last_report_time (fire_times s inputs) := by
  induction inputs generalizing s with
  | nil => exact List.Chain.nil
  | cons p rest ih =>
    obtain ⟨now, left, right⟩ := p
    unfold fire_times
    by_cases h : toUInt32 (now - s.last_report_time) ≥ 4
    · have hd : report_due s now = true := decide_eq_true h
      rw [if_pos hd]
      refine List.Chain.cons h ?_
      have := ih (loop_iteration s now left right)
      rw [loop_iteration_fire s now left right h] at this ⊢
      exact this
    · have hd : report_due s now = false := decide_eq_false h
      rw [hd]
      simp only [Bool.false_eq_true, if_false]
      have := ih (loop_iteration s now left right)
      rw [loop_iteration_idle s now left right h] at this ⊢
      exact this

/-- C17. One loop iteration runs `process_controller_data` exactly once if
`(now - last_report_time) mod 2^32 ≥ 4`, and then sets `last_report_time` to `now`;
otherwise it does not run it and leaves the state, `last_report_time` included,
unchanged.  Over any sequence of iterations the clock values of consecutive fires
differ by at least 4 (modulo `2^32`). -/
theorem C17_scheduler (s : main_state) (now : Int) (left right : simple_controller_state_t) :
    (toUInt32 (now - s.last_report_time) ≥ 4 →
      (loop_iteration s now left right).st = process_controller_data s.st left right ∧
      (loop_iteration s now left right).reports_sent = s.reports_sent + 1 ∧
      (loop_iteration s now left right).last_report_time = now) ∧
    (¬ toUInt32 (now - s.last_report_time) ≥ 4 →
      loop_iteration s now left right = s) ∧
    ∀ inputs : List (Int × simple_controller_state_t × simple_controller_state_t),
      List.Chain (fun a b => toUInt32 (b - a) ≥ 4) s.last_report_time
        (fire_times s inputs) := by
  refine ⟨fun h => ?_, fun h => loop_iteration_idle s now left right h,
    fun inputs => fire_times_chain inputs s⟩
  rw [loop_iteration_fire s now left right h]
  exact ⟨rfl, rfl, rfl⟩

/-- C17 on a run from the loop's entry: the clock reads 3, 4, 7, 9, 12, 13,
4294967295 and then, after wrapping, 2.  The loop fires at 4, at 9 (not at 7, 3 ms
after 4), at 13 (not at 12, 3 ms after 9, although 12 is 4 ms after 4 + 4), at
4294967295, and not at 2, which is 3 ms later modulo `2^32`. -/
theorem C17_scheduler_witness :
    fire_times main_start
      [(3, sample_zero, sample_zero), (4, sample_zero, sample_zero),
        (7, sample_zero, sample_zero), (9, sample_zero, sample_zero),
        (12, sample_zero, sample_zero), (13, sample_zero, sample_zero),
        (4294967295, sample_zero, sample_zero), (2, sample_zero, sample_zero)]
      = [4, 9, 13, 4294967295] ∧
    (loop_iteration main_start 4 sample_zero sample_zero).last_report_time = 4 ∧
    (loop_iteration main_start 4 sample_zero sample_zero).reports_sent = 1 ∧
    loop_iteration main_start 3 sample_zero sample_zero = main_start :=
  ⟨by decide,
    ((C17_scheduler main_start 4 sample_zero sample_zero).1 (by decide)).2.2,
    ((C17_scheduler main_start 4 sample_zero sample_zero).1 (by decide)).2.1,
    (C17_scheduler main_start 3 sample_zero sample_zero).2.1 (by decide)⟩

/-! ## C18: the report layout -/

/-- C18. The packed `sinput_input_report_t` is 64 bytes: `report_id` (1),
`plug_status` (1), `charge_percent` (1), buttons (4), six `int16_t` stick and trigger
fields (12), `imu_timestamp_us` (4), six `int16_t` IMU fields (12), six `int16_t`
touchpad fields (12) and `reserved_bulk` (17), in this order, so that `left_x` starts at
byte offset 7, `imu_timestamp_us` at 19, `accel_x` at 23, `touchpad_1_x` at 35 and
`reserved_bulk` at 47. -/
theorem C18_report_layout :
    packed_sizeof sinput_input_report_members = 64 ∧
    sinput_input_report_members.map (fun m => m.2.sizeof) =
      [1, 1, 1, 4, 2, 2, 2, 2, 2, 2, 4, 2, 2, 2, 2, 2, 2, 2, 2, 2, 2, 2, 2, 17] ∧
    sinput_input_report_members.map (fun m => m.1) =
      [.report_id, .plug_status, .charge_percent, .buttons,
        .left_x, .left_y, .right_x, .right_y, .trigger_l, .trigger_r,
        .imu_timestamp_us,
        .accel_x, .accel_y, .accel_z, .gyro_x, .gyro_y, .gyro_z,
        .touchpad_1_x, .touchpad_1_y, .touchpad_1_pressure,
        .touchpad_2_x, .touchpad_2_y, .touchpad_2_pressure,
        .reserved_bulk] ∧
    packed_offsetof .report_id sinput_input_report_members = some 0 ∧
    packed_offsetof .plug_status sinput_input_report_members = some 1 ∧
    packed_offsetof .charge_percent sinput_input_report_members = some 2 ∧
    packed_offsetof .buttons sinput_input_report_members = some 3 ∧
    packed_offsetof .left_x sinput_input_report_members = some 7 ∧
    packed_offsetof .imu_timestamp_us sinput_input_report_members = some 19 ∧
    packed_offsetof .accel_x sinput_input_report_members = some 23 ∧
    packed_offsetof .touchpad_1_x sinput_input_report_members = some 35 ∧
    packed_offsetof .reserved_bulk sinput_input_report_members = some 47 := by
  refine ⟨?_, ?_, ?_, ?_, ?_, ?_, ?_, ?_, ?_, ?_, ?_, ?_⟩ <;> decide

/-! ## C19, C20: the IMU pipeline -/

theorem init_report_imu_state (st : process_state) :
    imu_state (clear_touchpad_button (init_report st)) = imu_state st := by
  unfold clear_touchpad_button init_report
  split <;> rfl

/-- The IMU outputs of a tick with a fresh right sample, and the filter state it
leaves. -/
theorem tick_imu_fresh (st : process_state) (left right : simple_controller_state_t)
    (h : right.data_received = true) :
    (process_controller_data st left right).report.accel_x =
      gyro_lowpass_filter (toInt16 (Int.tdiv right.accelX 800)) st.prev_accel_x accel_alpha ∧
    (process_controller_data st left right).report.accel_y =
      gyro_lowpass_filter (toInt16 (Int.tdiv right.accelZ 800)) st.prev_accel_y accel_alpha ∧
    (process_controller_data st left right).report.accel_z =
      gyro_lowpass_filter (toInt16 (Int.tdiv right.accelY 800)) st.prev_accel_z accel_alpha ∧
    (process_controller_data st left right).report.gyro_x =
      gyro_lowpass_filter (toInt16 (right.gyroX * -5)) st.prev_gyro_x gyro_alpha ∧
    (process_controller_data st left right).report.gyro_y =
      gyro_lowpass_filter (toInt16 (right.gyroZ * 5)) st.prev_gyro_y gyro_alpha ∧
    (process_controller_data st left right).report.gyro_z =
      gyro_lowpass_filter (toInt16 (right.gyroY * -5)) st.prev_gyro_z gyro_alpha ∧
    imu_state (process_controller_data st left right) =
      ((process_controller_data st left right).report.accel_x,
        (process_controller_data st left right).report.accel_y,
        (process_controller_data st left right).report.accel_z,
        (process_controller_data st left right).report.gyro_x,
        (process_controller_data st left right).report.gyro_y,
        (process_controller_data st left right).report.gyro_z) := by
  have hc := combine_touchpads_right_sourced (controller_blocks st left right)
  have hi := combine_touchpads_imu_state (controller_blocks st left right)
  simp only [right_sourced, Prod.mk.injEq] at hc
  obtain ⟨-, -, -, c1, c2, c3, c4, c5, c6, -⟩ := hc
  have hp : imu_state (process_left (clear_touchpad_button (init_report st)) left)
      = imu_state st := (process_left_imu_state _ _).trans (init_report_imu_state st)
  simp only [imu_state, Prod.mk.injEq] at hp
  obtain ⟨p1, p2, p3, p4, p5, p6⟩ := hp
  rw [process_controller_data, c1, c2, c3, c4, c5, c6, hi]
  unfold controller_blocks process_right
  rw [if_pos h]
  simp [imu_state, p1, p2, p3, p4, p5, p6]

/-- Gyro rates up to `6553` in magnitude are scaled without wrap-around. -/
theorem gyro_scaling_in_range (g : Int) (h : -6553 ≤ g ∧ g ≤ 6553) :
    toInt16 (g * -5) = -5 * g ∧ toInt16 (g * 5) = 5 * g := by
  unfold toInt16
  constructor <;> omega

/-- C19 (the code at the failing input). A fresh right sample with `gyroX = 10000`:
`-5 * gyroX` is `-50000`, which does not fit `int16_t raw_gyro_x`; the value fed into
the filter is `15536`, and from the start-up state the report carries `gyro_x = 1242`,
a positive rate. -/
theorem C19_gyro_scaling_wraps :
    (-5 : Int) * fresh_gyro_fast.gyroX = -50000 ∧
    toInt16 (fresh_gyro_fast.gyroX * -5) = 15536 ∧
    (process_controller_data startup sample_zero fresh_gyro_fast).report.gyro_x
      = gyro_lowpass_filter 15536 0 gyro_alpha ∧
    gyro_lowpass_filter 15536 0 gyro_alpha = 1242 :=
  ⟨by decide, by decide, (tick_imu_fresh startup sample_zero fresh_gyro_fast rfl).2.2.2.1,
    by decide!⟩

/-- A tick with a stale right sample keeps the right-sourced fields and the IMU filter
state. -/
theorem tick_right_stale (st : process_state) (left right : simple_controller_state_t)
    (hc : statics_consistent st) (h : right.data_received = false) :
    right_sourced (process_controller_data st left right).report = right_sourced st.report ∧
    imu_state (process_controller_data st left right) = imu_state st := by
  constructor
  · rw [process_controller_data, controller_blocks, combine_touchpads_right_sourced,
      process_right_stale _ _ h, process_left_right_sourced,
      ← init_report_right_sourced st hc]
    rfl
  · rw [process_controller_data, controller_blocks, combine_touchpads_imu_state,
      process_right_stale _ _ h, process_left_imu_state, init_report_imu_state]

/-- One tick keeps the persisted accelerometer values equal to the reported ones. -/
theorem prev_accel_step (st : process_state) (left right : simple_controller_state_t)
    (hc : statics_consistent st) (hi : prev_accel st = report_accel st.report) :
    prev_accel (process_controller_data st left right)
      = report_accel (process_controller_data st left right).report := by
  cases h : right.data_received
  · obtain ⟨h1, h2⟩ := tick_right_stale st left right hc h
    simp only [right_sourced, imu_state, Prod.mk.injEq] at h1 h2
    simp only [prev_accel, report_accel, Prod.mk.injEq] at hi ⊢
    obtain ⟨-, -, -, a1, a2, a3, -⟩ := h1
    obtain ⟨b1, b2, b3, -⟩ := h2
    rw [a1, a2, a3, b1, b2, b3]
    exact hi
  · have h7 := (tick_imu_fresh st left right h).2.2.2.2.2.2
    simp only [imu_state, Prod.mk.injEq] at h7
    simp only [prev_accel, report_accel, Prod.mk.injEq]
    exact ⟨h7.1, h7.2.1, h7.2.2.1⟩

theorem run_ticks_prev_accel
    (samples : List (simple_controller_state_t × simple_controller_state_t)) :
    prev_accel (run_ticks samples) = report_accel (run_ticks samples).report := by
  induction samples using List.reverseRecOn with
  | nil => rfl
  | append_singleton samples p ih =>
    obtain ⟨left, right⟩ := p
    rw [run_ticks_append]
    exact prev_accel_step _ left right (run_ticks_consistent samples) ih

theorem accel_scaling (a : Int) (h : -32768 ≤ a ∧ a ≤ 32767) :
    toInt16 (Int.tdiv a 800) = Int.tdiv a 800 := by
  rw [tdiv_pos _ _ (by norm_num)]
  unfold toInt16
  split_ifs <;> omega

/-- C20. For a fresh right sample with 16-bit accelerometer values and any persisted
previous triple, the outputs are `accel_x = LowPass(accelX / 800, prev_accel_x, 0.5f)`,
`accel_y = LowPass(accelZ / 800, prev_accel_y, 0.5f)` and
`accel_z = LowPass(accelY / 800, prev_accel_z, 0.5f)` with `/` truncating toward zero,
and after the tick the persisted previous values equal the new outputs; in every state
reached by a run of ticks from start-up, `prev_accel_*` equals `report.accel_*`. -/
theorem C20_accel_pipeline (st : process_state) (left right : simple_controller_state_t) :
    (right.data_received = true →
      (-32768 ≤ right.accelX ∧ right.accelX ≤ 32767) →
      (-32768 ≤ right.accelY ∧ right.accelY ≤ 32767) →
      (-32768 ≤ right.accelZ ∧ right.accelZ ≤ 32767) →
      (process_controller_data st left right).report.accel_x =
        gyro_lowpass_filter (Int.tdiv right.accelX 800) st.prev_accel_x accel_alpha ∧
      (process_controller_data st left right).report.accel_y =
        gyro_lowpass_filter (Int.tdiv right.accelZ 800) st.prev_accel_y accel_alpha ∧
      (process_controller_data st left right).report.accel_z =
        gyro_lowpass_filter (Int.tdiv right.accelY 800) st.prev_accel_z accel_alpha ∧
      prev_accel (process_controller_data st left right)
        = report_accel (process_controller_data st left right).report) ∧
    ∀ samples : List (simple_controller_state_t × simple_controller_state_t),
      prev_accel (run_ticks samples) = report_accel (run_ticks samples).report := by
  refine ⟨fun h hx hy hz => ?_, run_ticks_prev_accel⟩
  obtain ⟨e1, e2, e3, -, -, -, e7⟩ := tick_imu_fresh st left right h
  rw [accel_scaling _ hx] at e1
  rw [accel_scaling _ hz] at e2
  rw [accel_scaling _ hy] at e3
  simp only [imu_state, Prod.mk.injEq] at e7
  refine ⟨e1, e2, e3, ?_⟩
  simp only [prev_accel, report_accel, Prod.mk.injEq]
  exact ⟨e7.1, e7.2.1, e7.2.2.1⟩

/-- C20 on two ticks from start-up with `accel = (1700, -1700, 8000)`: the scaled
values are `(2, 10, -2)` (`-1700 / 800` is `-2`, not `-3`), the first tick reports
`(1, 5, -1)` and the second `(1, 7, -1)`. -/
theorem C20_accel_pipeline_witness :
    Int.tdiv fresh_accel.accelX 800 = 2 ∧ Int.tdiv fresh_accel.accelZ 800 = 10 ∧
    Int.tdiv fresh_accel.accelY 800 = -2 ∧
    (process_controller_data startup sample_zero fresh_accel).report.accel_x
      = gyro_lowpass_filter 2 0 accel_alpha ∧
    report_accel (process_controller_data startup sample_zero fresh_accel).report
      = (1, 5, -1) ∧
    report_accel (process_controller_data
      (process_controller_data startup sample_zero fresh_accel) sample_zero fresh_accel).report
      = (1, 7, -1) ∧
    prev_accel (process_controller_data
      (process_controller_data startup sample_zero fresh_accel) sample_zero fresh_accel)
      = (1, 7, -1) :=
  ⟨by decide, by decide, by decide,
    ((C20_accel_pipeline startup sample_zero fresh_accel).1 rfl ⟨by decide, by decide⟩
      ⟨by decide, by decide⟩ ⟨by decide, by decide⟩).1,
    by decide!, by decide!, by decide!⟩

/-- The four calls of `map` in `process_controller_data` take a 16-bit pad value: the
product computed in `long` stays within 32 bits, so no call overflows. -/
theorem map_calls_fit_long (v : Int) (h : -32768 ≤ v ∧ v ≤ 32767) :
    (-2147483648 ≤ (v - 0) * (959 - 480) ∧ (v - 0) * (959 - 480) ≤ 2147483647) ∧
    (-2147483648 ≤ (v - 0) * (0 - 942) ∧ (v - 0) * (0 - 942) ≤ 2147483647) ∧
    (-2147483648 ≤ (v - 0) * (0 - 479) ∧ (v - 0) * (0 - 479) ≤ 2147483647) ∧
    (-2147483648 ≤ (v - 0) * (942 - 0) ∧ (v - 0) * (942 - 0) ≤ 2147483647) := by
  refine ⟨⟨?_, ?_⟩, ⟨?_, ?_⟩, ⟨?_, ?_⟩, ⟨?_, ?_⟩⟩ <;> omega

/-! ## C21, C24: the threshold on the mapped coordinates -/

/-- The activity flags recorded by a tick are the threshold test on the mapped
coordinates the tick leaves behind. -/
theorem last_touch_active_iff (st : process_state) :
    ((combine_touchpads st).last_touch1_active = true ↔
      ((combine_touchpads st).raw_touch1_x > 10 ∨ (combine_touchpads st).raw_touch1_y > 10)) ∧
    ((combine_touchpads st).last_touch2_active = true ↔
      ((combine_touchpads st).raw_touch2_x > 10 ∨ (combine_touchpads st).raw_touch2_y > 10)) ∧
    (combine_touchpads st).last_touch1_active = touch1_active st ∧
    (combine_touchpads st).last_touch2_active = touch2_active st := by
  obtain ⟨r1, r2, r3, r4⟩ := combine_touchpads_raw st
  have a1 : (combine_touchpads st).last_touch1_active = touch1_active st := by
    unfold combine_touchpads; rfl
  have a2 : (combine_touchpads st).last_touch2_active = touch2_active st := by
    unfold combine_touchpads; rfl
  refine ⟨?_, ?_, a1, a2⟩
  · rw [a1, r1, r2]; simp [touch1_active, TOUCH_DEADZONE]
  · rw [a2, r3, r4]; simp [touch2_active, TOUCH_DEADZONE]

/-- After a fresh left sample with `padX = 5`, `padY = 1023` the left surface maps to
`(0, 4)` and is not active. -/
theorem faint_left_touch (st : process_state) (right : simple_controller_state_t) :
    (controller_blocks st fresh_pad_faint right).raw_touch2_x = 0 ∧
    (controller_blocks st fresh_pad_faint right).raw_touch2_y = 4 ∧
    touch2_active (controller_blocks st fresh_pad_faint right) = false := by
  obtain ⟨hx, hy⟩ := raw_touch2_fresh st fresh_pad_faint right rfl
  have ex : (controller_blocks st fresh_pad_faint right).raw_touch2_x = 0 := by
    rw [hx]; decide
  have ey : (controller_blocks st fresh_pad_faint right).raw_touch2_y = 4 := by
    rw [hy]; decide
  refine ⟨ex, ey, ?_⟩
  unfold touch2_active
  rw [ex, ey]; decide

/-- C21. For every state and every pair of samples, a surface counts as active in a tick
exactly when its persisted mapped x is greater than 10 or its persisted mapped y is
greater than 10, and the pressure is 255 when one of the two surfaces passes that test
and 0 otherwise; the zero-check of the controller blocks plays no part.  The fresh left
sample with `padX = 5`, `padY = 1023` has a nonzero pad, maps to `(0, 4)` and is not
active, and when the right surface is not active either the tick reports no touch:
pressure 0, coordinates `(0, 0)`. -/
theorem C21_threshold_rederivation (st : process_state)
    (left right : simple_controller_state_t) :
    (touch1_active (controller_blocks st left right) = true ↔
      ((process_controller_data st left right).raw_touch1_x > 10 ∨
        (process_controller_data st left right).raw_touch1_y > 10)) ∧
    (touch2_active (controller_blocks st left right) = true ↔
      ((process_controller_data st left right).raw_touch2_x > 10 ∨
        (process_controller_data st left right).raw_touch2_y > 10)) ∧
    ((process_controller_data st left right).last_touch1_active
        = touch1_active (controller_blocks st left right) ∧
      (process_controller_data st left right).last_touch2_active
        = touch2_active (controller_blocks st left right)) ∧
    (process_controller_data st left right).report.touchpad_1_pressure =
      (if ((process_controller_data st left right).raw_touch1_x > 10 ∨
            (process_controller_data st left right).raw_touch1_y > 10) ∨
          ((process_controller_data st left right).raw_touch2_x > 10 ∨
            (process_controller_data st left right).raw_touch2_y > 10) then 255 else 0) ∧
    (fresh_pad_faint.data_received = true ∧ fresh_pad_faint.padX ≠ 0 ∧
      fresh_pad_faint.padY ≠ 0) ∧
    (process_controller_data st fresh_pad_faint right).raw_touch2_x = 0 ∧
    (process_controller_data st fresh_pad_faint right).raw_touch2_y = 4 ∧
    (process_controller_data st fresh_pad_faint right).last_touch2_active = false ∧
    (¬ ((process_controller_data st fresh_pad_faint right).raw_touch1_x > 10 ∨
          (process_controller_data st fresh_pad_faint right).raw_touch1_y > 10) →
      (process_controller_data st fresh_pad_faint right).report.touchpad_1_pressure = 0 ∧
      (process_controller_data st fresh_pad_faint right).report.touchpad_1_x = 0 ∧
      (process_controller_data st fresh_pad_faint right).report.touchpad_1_y = 0 ∧
      (process_controller_data st fresh_pad_faint right).was_touching = false) := by
  obtain ⟨i1, i2, a1, a2⟩ := last_touch_active_iff (controller_blocks st left right)
  obtain ⟨p1, -, -, -⟩ := combine_touchpads_pressure (controller_blocks st left right)
  obtain ⟨fx, fy, fa⟩ := faint_left_touch st right
  obtain ⟨-, -, r3, r4⟩ := combine_touchpads_raw (controller_blocks st fresh_pad_faint right)
  obtain ⟨k1, -, b1, b2⟩ := last_touch_active_iff (controller_blocks st fresh_pad_faint right)
  unfold process_controller_data
  rw [a1] at i1
  rw [a2] at i2
  refine ⟨i1, i2, ⟨a1, a2⟩, ?_, ⟨rfl, by decide, by decide⟩, r3.trans fx, r4.trans fy,
    b2.trans fa, fun hn => ?_⟩
  · by_cases h : touch1_active (controller_blocks st left right) = true ∨
        touch2_active (controller_blocks st left right) = true
    · rw [p1, if_pos h, if_pos ((or_congr i1 i2).mp h)]
    · rw [p1, if_neg h, if_neg (fun hc => h ((or_congr i1 i2).mpr hc))]
  · have hr : touch1_active (controller_blocks st fresh_pad_faint right) = false := by
      rw [Bool.eq_false_iff]
      intro hc
      exact hn (k1.mp (b1.trans hc))
    have ho := touch_output_inactive (controller_blocks st fresh_pad_faint right) hr fa
    unfold touch_output at ho
    simp only [Prod.mk.injEq] at ho
    obtain ⟨o1, o2, o3, -, -, o6⟩ := ho
    exact ⟨o3, o1, o2, o6⟩

/-- C21 from power-up: the faint left touch with an idle right controller reports no
touch, while the same right controller touched at `padX = 1023`, `padY = 1` passes the
threshold. -/
theorem C21_threshold_rederivation_witness :
    ¬ ((process_controller_data startup fresh_pad_faint sample_zero).raw_touch1_x > 10 ∨
        (process_controller_data startup fresh_pad_faint sample_zero).raw_touch1_y > 10) ∧
    (process_controller_data startup fresh_pad_faint sample_zero).report.touchpad_1_pressure
      = 0 ∧
    touch1_active (controller_blocks startup fresh_pad_faint fresh_pad_corner) = true :=
  ⟨by decide,
    ((C21_threshold_rederivation startup sample_zero sample_zero).2.2.2.2.2.2.2.2
      (by decide)).1,
    (C21_threshold_rederivation startup fresh_pad_faint fresh_pad_corner).1.mpr (by decide)⟩

/-- For a fresh right sample with the pad in `0 .. 1023`, the right surface is active
after the controller blocks exactly when the pad is nonzero, and then maps to an x
between 480 and 959. -/
theorem right_touch_active_iff (st : process_state) (left right : simple_controller_state_t)
    (hf : right.data_received = true)
    (hx : 0 ≤ right.padX ∧ right.padX ≤ 1023) (hy : 0 ≤ right.padY ∧ right.padY ≤ 1023) :
    (touch1_active (controller_blocks st left right) = true ↔
      (right.padX ≠ 0 ∨ right.padY ≠ 0)) ∧
    ((right.padX ≠ 0 ∨ right.padY ≠ 0) →
      (480 ≤ (controller_blocks st left right).raw_touch1_x ∧
        (controller_blocks st left right).raw_touch1_x ≤ 959) ∧
      (0 ≤ (controller_blocks st left right).raw_touch1_y ∧
        (controller_blocks st left right).raw_touch1_y ≤ 942)) := by
  obtain ⟨ex, ey⟩ := raw_touch1_fresh st left right hf
  obtain ⟨⟨b1, b2⟩, -, -, -⟩ := map_pad_bounds right.padY hy.1 hy.2
  obtain ⟨-, ⟨b3, b4⟩, -, -⟩ := map_pad_bounds right.padX hx.1 hx.2
  have hu : toUInt16 (map right.padY 0 1023 480 959) = map right.padY 0 1023 480 959 := by
    unfold toUInt16; omega
  have hv : toUInt16 (map right.padX 0 1023 942 0) = map right.padX 0 1023 942 0 := by
    unfold toUInt16; omega
  by_cases hp : right.padX ≠ 0 ∨ right.padY ≠ 0
  · rw [if_pos hp, hu] at ex
    rw [if_pos hp, hv] at ey
    refine ⟨?_, fun _ => by rw [ex, ey]; exact ⟨⟨b1, b2⟩, b3, b4⟩⟩
    simp only [hp, iff_true]
    unfold touch1_active TOUCH_DEADZONE
    rw [ex]
    simp only [decide_eq_true_eq]
    left; omega
  · rw [if_neg hp] at ex ey
    refine ⟨?_, fun h => absurd h hp⟩
    simp only [hp, iff_false]
    unfold touch1_active TOUCH_DEADZONE
    rw [ex, ey]
    simp

/-- C24. For every fresh right sample with `padX` and `padY` in `0 .. 1023`, the
re-derived activity of the right surface (`raw_touch1_x > 10` or `raw_touch1_y > 10`)
holds exactly when `padX ≠ 0` or `padY ≠ 0`: a touched right pad maps into
`480 .. 959` by `0 .. 942`, so its x is at least 480, the threshold of 10 never discards
a touch of the right surface, and the tick then reports a touch.  The left surface can
be discarded: its fresh sample `padX = 5`, `padY = 1023` is nonzero and not active. -/
theorem C24_right_never_suppressed (st : process_state)
    (left right : simple_controller_state_t) (hf : right.data_received = true)
    (hx : 0 ≤ right.padX ∧ right.padX ≤ 1023) (hy : 0 ≤ right.padY ∧ right.padY ≤ 1023) :
    (((process_controller_data st left right).raw_touch1_x > 10 ∨
        (process_controller_data st left right).raw_touch1_y > 10) ↔
      (right.padX ≠ 0 ∨ right.padY ≠ 0)) ∧
    ((process_controller_data st left right).last_touch1_active = true ↔
      (right.padX ≠ 0 ∨ right.padY ≠ 0)) ∧
    ((right.padX ≠ 0 ∨ right.padY ≠ 0) →
      (480 ≤ (process_controller_data st left right).raw_touch1_x ∧
        (process_controller_data st left right).raw_touch1_x ≤ 959) ∧
      (0 ≤ (process_controller_data st left right).raw_touch1_y ∧
        (process_controller_data st left right).raw_touch1_y ≤ 942) ∧
      (process_controller_data st left right).report.touchpad_1_pressure = 255) ∧
    (fresh_pad_faint.padX ≠ 0 ∧
      touch2_active (controller_blocks st fresh_pad_faint right) = false) := by
  obtain ⟨h1, h2⟩ := right_touch_active_iff st left right hf hx hy
  obtain ⟨i1, -, a1, -⟩ := last_touch_active_iff (controller_blocks st left right)
  obtain ⟨r1, r2, -, -⟩ := combine_touchpads_raw (controller_blocks st left right)
  obtain ⟨p1, -, -, -⟩ := combine_touchpads_pressure (controller_blocks st left right)
  unfold process_controller_data
  refine ⟨?_, ?_, ?_, by decide, (faint_left_touch st right).2.2⟩
  · rw [← i1, a1]; exact h1
  · rw [a1]; exact h1
  · intro hp
    obtain ⟨b1, b2⟩ := h2 hp
    refine ⟨by rw [r1]; exact b1, by rw [r2]; exact b2, ?_⟩
    rw [p1, if_pos (Or.inl (h1.mpr hp))]

/-- C24 at the corner of the right pad nearest to the origin of the mapped range:
`padX = 1023`, `padY = 1` maps to `(480, 0)` and is still active. -/
theorem C24_right_never_suppressed_witness :
    (process_controller_data startup sample_zero fresh_pad_corner).raw_touch1_x = 480 ∧
    (process_controller_data startup sample_zero fresh_pad_corner).raw_touch1_y = 0 ∧
    (process_controller_data startup sample_zero fresh_pad_corner).last_touch1_active
      = true :=
  ⟨by decide, by decide,
    (C24_right_never_suppressed startup sample_zero fresh_pad_corner rfl
      (by decide) (by decide)).2.1.mpr (by decide)⟩

/-! ## C23: a touch outlives stale samples -/

/-- The touch state of a tick's input is not changed by the first two stages. -/
theorem init_clear_touch (st : process_state) :
    (clear_touchpad_button (init_report st)).raw_touch1_x = st.raw_touch1_x ∧
    (clear_touchpad_button (init_report st)).raw_touch1_y = st.raw_touch1_y ∧
    (clear_touchpad_button (init_report st)).raw_touch2_x = st.raw_touch2_x ∧
    (clear_touchpad_button (init_report st)).raw_touch2_y = st.raw_touch2_y ∧
    (clear_touchpad_button (init_report st)).smooth_touchpad_x = st.smooth_touchpad_x ∧
    (clear_touchpad_button (init_report st)).smooth_touchpad_y = st.smooth_touchpad_y := by
  unfold clear_touchpad_button init_report
  split <;> exact ⟨rfl, rfl, rfl, rfl, rfl, rfl⟩

/-- The mapped coordinates of the right surface are rewritten only by a fresh right
sample, those of the left surface only by a fresh left sample. -/
theorem controller_blocks_raw_stale (st : process_state)
    (left right : simple_controller_state_t) :
    (right.data_received = false →
      (controller_blocks st left right).raw_touch1_x = st.raw_touch1_x ∧
      (controller_blocks st left right).raw_touch1_y = st.raw_touch1_y) ∧
    (left.data_received = false →
      (controller_blocks st left right).raw_touch2_x = st.raw_touch2_x ∧
      (controller_blocks st left right).raw_touch2_y = st.raw_touch2_y) ∧
    (controller_blocks st left right).smooth_touchpad_x = st.smooth_touchpad_x ∧
    (controller_blocks st left right).smooth_touchpad_y = st.smooth_touchpad_y := by
  obtain ⟨i1, i2, i3, i4, i5, i6⟩ := init_clear_touch st
  have l1 : ∀ s, (process_left s left).raw_touch1_x = s.raw_touch1_x ∧
      (process_left s left).raw_touch1_y = s.raw_touch1_y ∧
      (process_left s left).smooth_touchpad_x = s.smooth_touchpad_x ∧
      (process_left s left).smooth_touchpad_y = s.smooth_touchpad_y := by
    intro s; unfold process_left; split <;> exact ⟨rfl, rfl, rfl, rfl⟩
  have r1 : ∀ s, (process_right s right).raw_touch2_x = s.raw_touch2_x ∧
      (process_right s right).raw_touch2_y = s.raw_touch2_y ∧
      (process_right s right).smooth_touchpad_x = s.smooth_touchpad_x ∧
      (process_right s right).smooth_touchpad_y = s.smooth_touchpad_y := by
    intro s; unfold process_right; split <;> exact ⟨rfl, rfl, rfl, rfl⟩
  unfold controller_blocks
  refine ⟨fun h => ?_, fun h => ?_, ?_, ?_⟩
  · rw [process_right_stale _ _ h]
    exact ⟨(l1 _).1.trans i1, (l1 _).2.1.trans i2⟩
  · rw [process_left_stale _ _ h]
    exact ⟨(r1 _).1.trans i3, (r1 _).2.1.trans i4⟩
  · exact ((r1 _).2.2.1.trans (l1 _).2.2.1).trans i5
  · exact ((r1 _).2.2.2.trans (l1 _).2.2.2).trans i6

/-- The activity tests and the target depend on the mapped coordinates only. -/
theorem touch_target_congr (s s' : process_state)
    (h1 : s.raw_touch1_x = s'.raw_touch1_x) (h2 : s.raw_touch1_y = s'.raw_touch1_y)
    (h3 : s.raw_touch2_x = s'.raw_touch2_x) (h4 : s.raw_touch2_y = s'.raw_touch2_y) :
    touch1_active s = touch1_active s' ∧ touch2_active s = touch2_active s' ∧
    target_x s = target_x s' ∧ target_y s = target_y s' := by
  have a1 : touch1_active s = touch1_active s' := by unfold touch1_active; rw [h1, h2]
  have a2 : touch2_active s = touch2_active s' := by unfold touch2_active; rw [h3, h4]
  refine ⟨a1, a2, ?_, ?_⟩
  · unfold target_x active_x; rw [a1, a2, h1, h3]
  · unfold target_y active_y; rw [a1, a2, h2, h4]

/-- The combine stage on a state with an active surface and `was_touching` set. -/
theorem touch_output_tracking (st : process_state)
    (ha : (touch1_active st || touch2_active st) = true) (hw : st.was_touching = true) :
    touch_output (combine_touchpads st) =
      (gyro_lowpass_filter (target_x st) st.smooth_touchpad_x touchpad_alpha,
        gyro_lowpass_filter (target_y st) st.smooth_touchpad_y touchpad_alpha, 255,
        gyro_lowpass_filter (target_x st) st.smooth_touchpad_x touchpad_alpha,
        gyro_lowpass_filter (target_y st) st.smooth_touchpad_y touchpad_alpha, true) := by
  simp [combine_touchpads, touch_output, ha, hw]

/-- C23. The mapped touch coordinates of a controller are rewritten only on ticks
where that controller has fresh data.  So after a tick that reported a touch, a tick in
which neither controller has `data_received = true` keeps the mapped coordinates, still
reports a touch (pressure 255, `was_touching` true) and low-pass filters the smoothed
position toward the same target as the tick before.  The touch ends only when a fresh
sample with an inactive pad arrives: whenever the following tick reports no touch, every
surface that was active in the tick before received a fresh sample whose mapped pad
position fails the threshold (for a right pad in `0 .. 1023` that is `padX = 0` and
`padY = 0`). -/
theorem C23_stale_touch_persists (st : process_state)
    (left0 right0 left right : simple_controller_state_t)
    (hp : (process_controller_data st left0 right0).report.touchpad_1_pressure = 255) :
    (left.data_received = false → right.data_received = false →
      touch_output
          (process_controller_data (process_controller_data st left0 right0) left right) =
        (gyro_lowpass_filter (target_x (controller_blocks st left0 right0))
            (process_controller_data st left0 right0).smooth_touchpad_x touchpad_alpha,
          gyro_lowpass_filter (target_y (controller_blocks st left0 right0))
            (process_controller_data st left0 right0).smooth_touchpad_y touchpad_alpha,
          255,
          gyro_lowpass_filter (target_x (controller_blocks st left0 right0))
            (process_controller_data st left0 right0).smooth_touchpad_x touchpad_alpha,
          gyro_lowpass_filter (target_y (controller_blocks st left0 right0))
            (process_controller_data st left0 right0).smooth_touchpad_y touchpad_alpha,
          true) ∧
      target_x (controller_blocks (process_controller_data st left0 right0) left right)
        = target_x (controller_blocks st left0 right0) ∧
      target_y (controller_blocks (process_controller_data st left0 right0) left right)
        = target_y (controller_blocks st left0 right0)) ∧
    (right.data_received = false →
      (process_controller_data (process_controller_data st left0 right0) left
          right).raw_touch1_x = (process_controller_data st left0 right0).raw_touch1_x ∧
      (process_controller_data (process_controller_data st left0 right0) left
          right).raw_touch1_y = (process_controller_data st left0 right0).raw_touch1_y) ∧
    (left.data_received = false →
      (process_controller_data (process_controller_data st left0 right0) left
          right).raw_touch2_x = (process_controller_data st left0 right0).raw_touch2_x ∧
      (process_controller_data (process_controller_data st left0 right0) left
          right).raw_touch2_y = (process_controller_data st left0 right0).raw_touch2_y) ∧
    ((process_controller_data (process_controller_data st left0 right0) left
          right).report.touchpad_1_pressure = 0 →
      ((process_controller_data st left0 right0).last_touch1_active = true →
        right.data_received = true ∧
        ¬ ((if right.padX ≠ 0 ∨ right.padY ≠ 0
              then toUInt16 (map right.padY 0 1023 480 959) else 0) > 10 ∨
            (if right.padX ≠ 0 ∨ right.padY ≠ 0
              then toUInt16 (map right.padX 0 1023 942 0) else 0) > 10) ∧
        (0 ≤ right.padX ∧ right.padX ≤ 1023 → 0 ≤ right.padY ∧ right.padY ≤ 1023 →
          right.padX = 0 ∧ right.padY = 0)) ∧
      ((process_controller_data st left0 right0).last_touch2_active = true →
        left.data_received = true ∧
        ¬ ((if left.padX ≠ 0 ∨ left.padY ≠ 0
              then toUInt16 (map left.padY 0 1023 479 0) else 0) > 10 ∨
            (if left.padX ≠ 0 ∨ left.padY ≠ 0
              then toUInt16 (map left.padX 0 1023 0 942) else 0) > 10)) ∧
      (left.data_received = true ∨ right.data_received = true)) := by
  unfold process_controller_data at hp ⊢
  obtain ⟨p0, w0, -, -⟩ := combine_touchpads_pressure (controller_blocks st left0 right0)
  obtain ⟨q1, q2, q3, q4⟩ := combine_touchpads_raw (controller_blocks st left0 right0)
  obtain ⟨-, -, a1, a2⟩ := last_touch_active_iff (controller_blocks st left0 right0)
  have hact : touch1_active (controller_blocks st left0 right0) = true ∨
      touch2_active (controller_blocks st left0 right0) = true := by
    by_contra hc
    rw [p0, if_neg hc] at hp
    exact absurd hp (by decide)
  have hw : (combine_touchpads (controller_blocks st left0 right0)).was_touching = true :=
    w0.mpr hact
  obtain ⟨s1, s2, s3, s4⟩ := controller_blocks_raw_stale
    (combine_touchpads (controller_blocks st left0 right0)) left right
  have hw1 := controller_blocks_was_touching
    (combine_touchpads (controller_blocks st left0 right0)) left right
  obtain ⟨p1, -, -, -⟩ := combine_touchpads_pressure
    (controller_blocks (combine_touchpads (controller_blocks st left0 right0)) left right)
  obtain ⟨t1, t2, t3, t4⟩ := combine_touchpads_raw
    (controller_blocks (combine_touchpads (controller_blocks st left0 right0)) left right)
  have k1 : right.data_received = false →
      touch1_active
          (controller_blocks (combine_touchpads (controller_blocks st left0 right0)) left right)
        = touch1_active (controller_blocks st left0 right0) := by
    intro h
    unfold touch1_active
    rw [(s1 h).1, (s1 h).2, q1, q2]
  have k2 : left.data_received = false →
      touch2_active
          (controller_blocks (combine_touchpads (controller_blocks st left0 right0)) left right)
        = touch2_active (controller_blocks st left0 right0) := by
    intro h
    unfold touch2_active
    rw [(s2 h).1, (s2 h).2, q3, q4]
  refine ⟨fun hl hr => ?_, fun hr => ?_, fun hl => ?_, fun h0 => ?_⟩
  · obtain ⟨c1, c2, c3, c4⟩ := touch_target_congr
      (controller_blocks (combine_touchpads (controller_blocks st left0 right0)) left right)
      (controller_blocks st left0 right0)
      ((s1 hr).1.trans q1) ((s1 hr).2.trans q2) ((s2 hl).1.trans q3) ((s2 hl).2.trans q4)
    refine ⟨?_, c3, c4⟩
    rw [touch_output_tracking _ (by rw [c1, c2]; simpa using hact) (hw1.trans hw),
      c3, c4, s3, s4]
  · exact ⟨t1.trans (s1 hr).1, t2.trans (s1 hr).2⟩
  · exact ⟨t3.trans (s2 hl).1, t4.trans (s2 hl).2⟩
  · have hn : ¬ (touch1_active
          (controller_blocks (combine_touchpads (controller_blocks st left0 right0)) left
            right) = true ∨
        touch2_active
          (controller_blocks (combine_touchpads (controller_blocks st left0 right0)) left
            right) = true) := by
      intro hc
      rw [p1, if_pos hc] at h0
      exact absurd h0 (by decide)
    have f1 : touch1_active (controller_blocks st left0 right0) = true →
        right.data_received = true := by
      intro h
      by_contra hc
      have hc' : right.data_received = false := by simpa using hc
      exact hn (Or.inl ((k1 hc').trans h))
    have f2 : touch2_active (controller_blocks st left0 right0) = true →
        left.data_received = true := by
      intro h
      by_contra hc
      have hc' : left.data_received = false := by simpa using hc
      exact hn (Or.inr ((k2 hc').trans h))
    refine ⟨fun h => ?_, fun h => ?_, ?_⟩
    · have hf := f1 (a1 ▸ h)
      obtain ⟨ex, ey⟩ := raw_touch1_fresh
        (combine_touchpads (controller_blocks st left0 right0)) left right hf
      refine ⟨hf, ?_, fun hx hy => ?_⟩
      · rw [← ex, ← ey]
        intro hc
        apply hn
        left
        unfold touch1_active TOUCH_DEADZONE
        simpa using hc
      · have hz : ¬ (right.padX ≠ 0 ∨ right.padY ≠ 0) := fun hc =>
          hn (Or.inl ((right_touch_active_iff
            (combine_touchpads (controller_blocks st left0 right0)) left right hf hx hy).1.mpr
              hc))
        exact ⟨not_not.mp (fun h => hz (Or.inl h)), not_not.mp (fun h => hz (Or.inr h))⟩
    · have hf := f2 (a2 ▸ h)
      obtain ⟨ex, ey⟩ := raw_touch2_fresh
        (combine_touchpads (controller_blocks st left0 right0)) left right hf
      refine ⟨hf, ?_⟩
      rw [← ex, ← ey]
      intro hc
      apply hn
      right
      unfold touch2_active TOUCH_DEADZONE
      simpa using hc
    · rcases hact with h | h
      · exact Or.inr (f1 h)
      · exact Or.inl (f2 h)

/-- C23 from power-up: after a left touch at `(500, 500)`, a tick with two stale samples
still reports the touch at the same place, and the tick that ends the touch carries a
fresh left sample whose pad is untouched. -/
theorem C23_stale_touch_persists_witness :
    (process_controller_data startup fresh_pad_500 sample_zero).report.touchpad_1_pressure
      = 255 ∧
    (touch_output (process_controller_data
      (process_controller_data startup fresh_pad_500 sample_zero) sample_zero
        sample_zero)).2.2.1 = 255 ∧
    (process_controller_data
      (process_controller_data startup fresh_pad_500 sample_zero) sample_zero
        sample_zero).raw_touch2_x
      = (process_controller_data startup fresh_pad_500 sample_zero).raw_touch2_x ∧
    (process_controller_data
      (process_controller_data startup fresh_pad_500 sample_zero) fresh_idle
        sample_zero).report.touchpad_1_pressure = 0 ∧
    fresh_idle.data_received = true :=
  ⟨by decide,
    congrArg (fun t => t.2.2.1)
      ((C23_stale_touch_persists startup fresh_pad_500 sample_zero sample_zero sample_zero
        (by decide)).1 rfl rfl).1,
    ((C23_stale_touch_persists startup fresh_pad_500 sample_zero sample_zero sample_zero
        (by decide)).2.2.1 rfl).1,
    by decide,
    (((C23_stale_touch_persists startup fresh_pad_500 sample_zero fresh_idle sample_zero
        (by decide)).2.2.2 (by decide)).2.1 (by decide)).1⟩

/-! ## C22: the filter stays between its inputs -/

/-- The float value of the filter is monotone in both samples when `alpha` and the
rounded `1 - alpha` are non-negative. -/
theorem lowpass_f32_mono (alpha : Int) (ha : 0 ≤ alpha)
    (hb : 0 ≤ f32_sub (f32_of_int 1) alpha) (n n' p p' : Int) (hn : n ≤ n') (hp : p ≤ p') :
    lowpass_f32 n p alpha ≤ lowpass_f32 n' p' alpha := by
  have hu : (0 : Int) ≤ (f32_unit : Int) := Int.ofNat_nonneg _
  unfold lowpass_f32 f32_add f32_mul
  apply f32_round_mono
  apply add_le_add
  · apply f32_round_mono
    unfold f32_of_int
    exact mul_le_mul_of_nonneg_left (mul_le_mul_of_nonneg_right hn hu) ha
  · apply f32_round_mono
    unfold f32_of_int
    exact mul_le_mul_of_nonneg_left (mul_le_mul_of_nonneg_right hp hu) hb

/-- Truncation toward zero is monotone. -/
theorem f32_trunc_mono (a b : Int) (h : a ≤ b) : f32_trunc a ≤ f32_trunc b := by
  have hu : (0 : Int) < (f32_unit : Int) := by
    unfold f32_unit; exact_mod_cast Nat.two_pow_pos 149
  unfold f32_trunc
  rw [tdiv_pos a _ hu, tdiv_pos b _ hu]
  split_ifs with h1 h2 h2
  · exact Int.ediv_le_ediv hu h
  · omega
  · have := Int.ediv_nonneg (show 0 ≤ -a by omega) (le_of_lt hu)
    have := Int.ediv_nonneg h2 (le_of_lt hu)
    omega
  · have := Int.ediv_le_ediv hu (show -b ≤ -a by omega)
    omega

/-- A fixed point of the truncated float value on `0 .. 32768` is a fixed point on the
whole signed 16-bit range. -/
theorem trunc_fixed_of_nat (alpha : Int)
    (H : ∀ v : Nat, v ≤ 32768 → f32_trunc (lowpass_f32 (v : Int) (v : Int) alpha) = (v : Int))
    (v : Int) (h1 : -32768 ≤ v) (h2 : v ≤ 32767) :
    f32_trunc (lowpass_f32 v v alpha) = v := by
  rcases Int.le_total 0 v with hv | hv
  · obtain ⟨n, rfl⟩ := Int.eq_ofNat_of_zero_le hv
    exact H n (by omega)
  · obtain ⟨n, hn⟩ := Int.eq_ofNat_of_zero_le (show 0 ≤ -v by omega)
    have e : v = -(n : Int) := by omega
    rw [e, lowpass_f32_neg, f32_trunc_neg, H n (by omega)]

/-- A monotone filter with fixed points stays between its two inputs. -/
theorem filter_between (alpha : Int) (ha : 0 ≤ alpha)
    (hb : 0 ≤ f32_sub (f32_of_int 1) alpha)
    (H : ∀ v : Nat, v ≤ 32768 → f32_trunc (lowpass_f32 (v : Int) (v : Int) alpha) = (v : Int))
    (new prev : Int) (hn : -32768 ≤ new ∧ new ≤ 32767) (hp : -32768 ≤ prev ∧ prev ≤ 32767) :
    min new prev ≤ gyro_lowpass_filter new prev alpha ∧
    gyro_lowpass_filter new prev alpha ≤ max new prev ∧
    gyro_lowpass_filter new prev alpha = f32_trunc (lowpass_f32 new prev alpha) := by
  have lo := f32_trunc_mono _ _
    (lowpass_f32_mono alpha ha hb (min new prev) new (min new prev) prev
      (min_le_left _ _) (min_le_right _ _))
  have hi := f32_trunc_mono _ _
    (lowpass_f32_mono alpha ha hb new (max new prev) prev (max new prev)
      (le_max_left _ _) (le_max_right _ _))
  have m1 : -32768 ≤ min new prev := le_min hn.1 hp.1
  have m2 : min new prev ≤ 32767 := le_trans (min_le_left _ _) hn.2
  have m3 : -32768 ≤ max new prev := le_trans hn.1 (le_max_left _ _)
  have m4 : max new prev ≤ 32767 := max_le hn.2 hp.2
  rw [trunc_fixed_of_nat alpha H _ m1 m2] at lo
  rw [trunc_fixed_of_nat alpha H _ m3 m4] at hi
  have e : gyro_lowpass_filter new prev alpha = f32_trunc (lowpass_f32 new prev alpha) := by
    unfold gyro_lowpass_filter toInt16
    omega
  rw [e]
  exact ⟨lo, hi, rfl⟩

theorem gyro_alpha_nonneg :
    0 ≤ gyro_alpha ∧ 0 ≤ f32_sub (f32_of_int 1) gyro_alpha := by
  unfold gyro_alpha
  rw [one_sub_gyro_alpha]
  exact ⟨Int.ofNat_nonneg _, Int.ofNat_nonneg _⟩

theorem accel_alpha_nonneg :
    0 ≤ accel_alpha ∧ 0 ≤ f32_sub (f32_of_int 1) accel_alpha := by
  rw [one_sub_accel_alpha]
  unfold accel_alpha
  exact ⟨Int.ofNat_nonneg _, Int.ofNat_nonneg _⟩

theorem touchpad_alpha_nonneg :
    0 ≤ touchpad_alpha ∧ 0 ≤ f32_sub (f32_of_int 1) touchpad_alpha := by
  unfold touchpad_alpha
  rw [one_sub_touchpad_alpha]
  exact ⟨Int.ofNat_nonneg _, Int.ofNat_nonneg _⟩

/-- C22 (as stated, refuted). `alpha = 0.22f` is a binary32 value between 0 and 1, yet
with `new = prev = 59` the filter returns 58, below both inputs, and with
`new = prev = -59` it returns -58, above both inputs. -/
theorem C22_lowpass_bounded_counterexample :
    0 ≤ alpha_0_22 ∧ alpha_0_22 ≤ (f32_unit : Int) ∧
    gyro_lowpass_filter 59 59 alpha_0_22 = 58 ∧
    ¬ (min 59 59 ≤ gyro_lowpass_filter 59 59 alpha_0_22) ∧
    gyro_lowpass_filter (-59) (-59) alpha_0_22 = -58 ∧
    ¬ (gyro_lowpass_filter (-59) (-59) alpha_0_22 ≤ max (-59) (-59)) := by
  decide!

/-- C22 (amended). For every 16-bit signed `new` and `prev` and each of the three
configured smoothing factors (`0.08f` for the gyro, `0.5f` for the accelerometer, `0.2f`
for the touchpad), `gyro_lowpass_filter new prev alpha` lies between `min new prev` and
`max new prev` inclusive, and the conversion back to 16 bits does not wrap: the result is
the truncated float value. -/
theorem C22_lowpass_bounded_configured (new prev : Int)
    (hn : -32768 ≤ new ∧ new ≤ 32767) (hp : -32768 ≤ prev ∧ prev ≤ 32767) :
    (min new prev ≤ gyro_lowpass_filter new prev gyro_alpha ∧
      gyro_lowpass_filter new prev gyro_alpha ≤ max new prev ∧
      gyro_lowpass_filter new prev gyro_alpha
        = f32_trunc (lowpass_f32 new prev gyro_alpha)) ∧
    (min new prev ≤ gyro_lowpass_filter new prev accel_alpha ∧
      gyro_lowpass_filter new prev accel_alpha ≤ max new prev ∧
      gyro_lowpass_filter new prev accel_alpha
        = f32_trunc (lowpass_f32 new prev accel_alpha)) ∧
    (min new prev ≤ gyro_lowpass_filter new prev touchpad_alpha ∧
      gyro_lowpass_filter new prev touchpad_alpha ≤ max new prev ∧
      gyro_lowpass_filter new prev touchpad_alpha
        = f32_trunc (lowpass_f32 new prev touchpad_alpha)) :=
  ⟨filter_between gyro_alpha gyro_alpha_nonneg.1 gyro_alpha_nonneg.2 lowpass_fixed_gyro
      new prev hn hp,
    filter_between accel_alpha accel_alpha_nonneg.1 accel_alpha_nonneg.2 lowpass_fixed_accel
      new prev hn hp,
    filter_between touchpad_alpha touchpad_alpha_nonneg.1 touchpad_alpha_nonneg.2
      lowpass_fixed_touchpad new prev hn hp⟩

/-- C22 at the two ends of the 16-bit range, for the touchpad factor. -/
theorem C22_lowpass_bounded_configured_witness :
    min (32767 : Int) (-32768) ≤ gyro_lowpass_filter 32767 (-32768) touchpad_alpha ∧
    gyro_lowpass_filter 32767 (-32768) touchpad_alpha ≤ max (32767 : Int) (-32768) :=
  ⟨(C22_lowpass_bounded_configured 32767 (-32768) (by decide) (by decide)).2.2.1,
    (C22_lowpass_bounded_configured 32767 (-32768) (by decide) (by decide)).2.2.2.1⟩

end SplitDeck
